import Mathlib

/-!
# The child-process registry of `src/win32.c`

A shallow embedding of the Windows back end of mruby-process: the table
`ChildRecord[MAXCHILDNUM]`, the slot finders, `CreateChild`,
`poll_child_status`, `CloseChildHandle`, `waitpid` and `kill`.

* The table is a list of records; a `struct ChildRecord *` is the index of a
  slot, `NULL` is `none`.
* The operating system is a parameter: a value of `Win32 W` gives, for a world
  state `W`, what every native call answers and how it changes the world.
  A theorem with a parameter `os` holds for every such system; what a theorem
  needs to know about the system is a hypothesis of it.
* Each native call is also written to a log (`Sys.trace`, newest first) with
  its arguments and its answer, so that statements about which native calls
  were made can be read off the log.
* `int`, `pid_t` are `Int`; `DWORD`, `HANDLE` are `Nat`; conversions between
  them wrap modulo `2 ^ 32 = 4294967296` where the C code converts.
* The loop of `waitpid` on one child may run for ever; it is given a number of
  iterations (`fuel`), and a call that uses them up ends as `outOfFuel`. The
  counter `retried` of that loop is a natural number.
* A read of the array `targets` outside the entries that were filled ends the
  call as `outOfBounds`.
* `WNOHANG`, `SIGINT` and `SIGKILL` come from headers that are not part of
  `src/win32.c`; they are parameters (`Consts`).
-/

namespace Win32Process

/-! ## Machine types and platform constants -/

/-! A `HANDLE` and a `DWORD` are written `Nat`, a `pid_t` and an `int` are
written `Int`. -/

/-- A wide string: the characters before the terminating NUL. -/
abbrev WSTR := List Nat

/-- Line 29: `#define MAXCHILDNUM 256`. -/
def MAXCHILDNUM : Nat := 256
def NULL : Nat := 0
/-- The value `(HANDLE)-1` of a pointer-sized handle (64 bits). -/
def INVALID_HANDLE_VALUE : Nat := 18446744073709551615
def STILL_ACTIVE : Nat := 259
def WAIT_OBJECT_0 : Nat := 0
/-- The constant `258L`. -/
def WAIT_TIMEOUT : Int := 258
def WAIT_FAILED : Nat := 4294967295
def INFINITE : Nat := 4294967295
def NORMAL_PRIORITY_CLASS : Nat := 32
def STARTF_USESTDHANDLES : Nat := 256
def STD_INPUT_HANDLE : Nat := 4294967286
def STD_OUTPUT_HANDLE : Nat := 4294967285
def STD_ERROR_HANDLE : Nat := 4294967284
def PROCESS_TERMINATE : Nat := 1
def PROCESS_QUERY_INFORMATION : Nat := 1024
def CTRL_C_EVENT : Nat := 0
def CTRL_BREAK_EVENT : Nat := 1
/-- The longest command line `CreateChild` hands to the system (line 476). -/
def MAXCMDLEN : Int := 32767

/-- Conversion of a `DWORD` to `int` / `pid_t` (two's complement, 32 bits). -/
def toInt (d : Nat) : Int :=
  if d % 4294967296 < 2147483648 then ((d % 4294967296 : Nat) : Int)
  else ((d % 4294967296 : Nat) : Int) - 4294967296

/-- Conversion of an `int` to `DWORD` / `unsigned int`. -/
def toDWORD (i : Int) : Nat := (i % 4294967296).toNat

/-- The constants that `process.h` and `signal.h` supply and `src/win32.c` only
names. The three cases of the `switch` in `kill` are `0`, `SIGINT` and
`SIGKILL`, which C requires to be pairwise different. -/
structure Consts where
  WNOHANG : Int
  SIGINT : Int
  SIGKILL : Int
  sigint_ne_zero : SIGINT ≠ 0
  sigkill_ne_zero : SIGKILL ≠ 0
  sigkill_ne_sigint : SIGKILL ≠ SIGINT

/-! ## Data model -/

/-- Lines 33-36: one slot of the registry. -/
structure ChildRecord where
  hProcess : Nat
  pid : Int
deriving DecidableEq

structure SECURITY_ATTRIBUTES where
  nLength : Nat
  lpSecurityDescriptor : Nat
  bInheritHandle : Int
deriving DecidableEq

/-- The fields of `STARTUPINFOW` that `CreateChild` sets; the others are zero. -/
structure STARTUPINFOW where
  cb : Nat
  dwFlags : Nat
  hStdInput : Nat
  hStdOutput : Nat
  hStdError : Nat
deriving DecidableEq

structure PROCESS_INFORMATION where
  hProcess : Nat
  hThread : Nat
  dwProcessId : Nat
  dwThreadId : Nat
deriving DecidableEq

/-- The arguments of the `CreateProcessW` call of lines 481-483 (environment
and current directory are always `NULL` there). -/
structure CreateProcessArgs where
  lpApplicationName : Option WSTR
  lpCommandLine : Option WSTR
  lpProcessAttributes : SECURITY_ATTRIBUTES
  lpThreadAttributes : SECURITY_ATTRIBUTES
  bInheritHandles : Int
  dwCreationFlags : Nat
  lpStartupInfo : STARTUPINFOW
deriving DecidableEq

/-- One native call as it was made: arguments, then the answer. -/
inductive Event where
  | GetExitCodeProcess (h : Nat) (answer : Option Nat)
  | WaitForSingleObject (h : Nat) (ms : Nat) (answer : Nat)
  | WaitForMultipleObjects (hs : List Nat) (waitAll : Bool) (ms : Nat) (answer : Nat)
  | CloseHandle (h : Nat)
  | OpenProcess (access : Nat) (inherit : Bool) (pid : Nat) (answer : Nat)
  | TerminateProcess (h : Nat) (code : Nat) (answer : Bool)
  | GenerateConsoleCtrlEvent (ev : Nat) (group : Nat) (answer : Bool)
  | GetCurrentProcessId (answer : Nat)
  | raise (sig : Int) (answer : Int)
  | GetStdHandle (n : Nat) (answer : Nat)
  | CreateProcessW (a : CreateProcessArgs) (answer : Option PROCESS_INFORMATION)
deriving DecidableEq

/-- The native interface the file calls. `W` is the state of the world outside
the program; a call returns the next world and its answer. A `BOOL` answer that
comes with an out-parameter is an `Option`: `none` is `FALSE`. -/
structure Win32 (W : Type) where
  GetExitCodeProcess : W → Nat → W × Option Nat
  WaitForSingleObject : W → Nat → Nat → W × Nat
  WaitForMultipleObjects : W → List Nat → Bool → Nat → W × Nat
  CloseHandle : W → Nat → W
  OpenProcess : W → Nat → Bool → Nat → W × Nat
  TerminateProcess : W → Nat → Nat → W × Bool
  GenerateConsoleCtrlEvent : W → Nat → Nat → W × Bool
  GetCurrentProcessId : W → W × Nat
  raise : W → Int → W × Int
  GetStdHandle : W → Nat → W × Nat
  CreateProcessW : W → CreateProcessArgs → W × Option PROCESS_INFORMATION

/-- The state a call runs in: the registry, the world, and the log of native
calls (newest first). -/
structure Sys (W : Type) where
  table : List ChildRecord
  world : W
  trace : List Event

/-- Line 36: the registry at process start, all slots zero. -/
def initialTable : List ChildRecord :=
  List.replicate MAXCHILDNUM { hProcess := NULL, pid := 0 }

/-- The slot a pointer into the table refers to. -/
def slot (t : List ChildRecord) (i : Nat) : ChildRecord :=
  t.getD i { hProcess := NULL, pid := 0 }

/-! ## Native calls, logged -/

variable {W : Type}

def Sys.GetExitCodeProcess (os : Win32 W) (s : Sys W) (h : Nat) : Sys W × Option Nat :=
  let r := os.GetExitCodeProcess s.world h
  ({ s with world := r.1, trace := Event.GetExitCodeProcess h r.2 :: s.trace }, r.2)

def Sys.WaitForSingleObject (os : Win32 W) (s : Sys W) (h : Nat) (ms : Nat) :
    Sys W × Nat :=
  let r := os.WaitForSingleObject s.world h ms
  ({ s with world := r.1, trace := Event.WaitForSingleObject h ms r.2 :: s.trace }, r.2)

def Sys.WaitForMultipleObjects (os : Win32 W) (s : Sys W) (hs : List Nat) (waitAll : Bool)
    (ms : Nat) : Sys W × Nat :=
  let r := os.WaitForMultipleObjects s.world hs waitAll ms
  ({ s with world := r.1, trace := Event.WaitForMultipleObjects hs waitAll ms r.2 :: s.trace },
    r.2)

def Sys.CloseHandle (os : Win32 W) (s : Sys W) (h : Nat) : Sys W :=
  { s with world := os.CloseHandle s.world h, trace := Event.CloseHandle h :: s.trace }

def Sys.OpenProcess (os : Win32 W) (s : Sys W) (access : Nat) (inherit : Bool) (pid : Nat) :
    Sys W × Nat :=
  let r := os.OpenProcess s.world access inherit pid
  ({ s with world := r.1, trace := Event.OpenProcess access inherit pid r.2 :: s.trace }, r.2)

def Sys.TerminateProcess (os : Win32 W) (s : Sys W) (h : Nat) (code : Nat) : Sys W × Bool :=
  let r := os.TerminateProcess s.world h code
  ({ s with world := r.1, trace := Event.TerminateProcess h code r.2 :: s.trace }, r.2)

def Sys.GenerateConsoleCtrlEvent (os : Win32 W) (s : Sys W) (ev group : Nat) : Sys W × Bool :=
  let r := os.GenerateConsoleCtrlEvent s.world ev group
  ({ s with world := r.1, trace := Event.GenerateConsoleCtrlEvent ev group r.2 :: s.trace }, r.2)

def Sys.GetCurrentProcessId (os : Win32 W) (s : Sys W) : Sys W × Nat :=
  let r := os.GetCurrentProcessId s.world
  ({ s with world := r.1, trace := Event.GetCurrentProcessId r.2 :: s.trace }, r.2)

def Sys.raise (os : Win32 W) (s : Sys W) (sig : Int) : Sys W × Int :=
  let r := os.raise s.world sig
  ({ s with world := r.1, trace := Event.raise sig r.2 :: s.trace }, r.2)

def Sys.GetStdHandle (os : Win32 W) (s : Sys W) (n : Nat) : Sys W × Nat :=
  let r := os.GetStdHandle s.world n
  ({ s with world := r.1, trace := Event.GetStdHandle n r.2 :: s.trace }, r.2)

def Sys.CreateProcessW (os : Win32 W) (s : Sys W) (a : CreateProcessArgs) :
    Sys W × Option PROCESS_INFORMATION :=
  let r := os.CreateProcessW s.world a
  ({ s with world := r.1, trace := Event.CreateProcessW a r.2 :: s.trace }, r.2)

/-! ## The slot finders -/

/-- The loop `FOREACH_CHILD(child) { if (p) return child; } return NULL;`. -/
def findFirst (p : ChildRecord → Bool) : List ChildRecord → Option Nat
  | [] => none
  | c :: cs => if p c then some 0 else (findFirst p cs).map (· + 1)

/-- Lines 274-283. -/
def FindChildSlot (t : List ChildRecord) (pid : Int) : Option Nat :=
  findFirst (fun c => pid == -1 || c.pid == pid) t

/-- Lines 286-295. -/
def FindChildSlotByHandle (t : List ChildRecord) (h : Nat) : Option Nat :=
  findFirst (fun c => c.hProcess == h) t

/-- Lines 412-423: the first slot with `pid == 0` is locked with `pid = -1` and
its handle is cleared. -/
def FindFreeChildSlot (t : List ChildRecord) : List ChildRecord × Option Nat :=
  match findFirst (fun c => c.pid == 0) t with
  | some i => (t.set i { hProcess := NULL, pid := -1 }, some i)
  | none => (t, none)

/-- Lines 298-306. -/
def CloseChildHandle (os : Win32 W) (s : Sys W) (child : Nat) : Sys W :=
  let h := (slot s.table child).hProcess
  Sys.CloseHandle os { s with table := s.table.set child { hProcess := NULL, pid := 0 } } h

/-! ## The status reaper -/

/-- What `poll_child_status` leaves behind: the state, the `int` behind
`stat_loc` (`none` when `stat_loc` is `NULL`), and the returned pid. -/
structure PollResult (W : Type) where
  sys : Sys W
  stat_loc : Option Int
  pid : Int

/-- Line 265: `exitcode << 8` in `DWORD` arithmetic, stored into an `int`. -/
def encodeStatus (exitcode : Nat) : Int := toInt ((exitcode <<< 8) % 4294967296)

/-- Lines 241-271. -/
def poll_child_status (os : Win32 W) (s : Sys W) (child : Nat) (stat_loc : Option Int) :
    PollResult W :=
  let h := (slot s.table child).hProcess
  let query := Sys.GetExitCodeProcess os s h
  match query.2 with
  | none => ⟨CloseChildHandle os query.1 child, stat_loc, -1⟩
  | some exitcode =>
    if exitcode ≠ STILL_ACTIVE then
      let waited := Sys.WaitForSingleObject os query.1 h INFINITE
      if waited.2 ≠ WAIT_OBJECT_0 then ⟨CloseChildHandle os waited.1 child, stat_loc, -1⟩
      else
        let pid := (slot waited.1.table child).pid
        ⟨CloseChildHandle os waited.1 child, stat_loc.map (fun _ => encodeStatus exitcode), pid⟩
    else ⟨query.1, stat_loc, 0⟩

/-! ## The wait dispatcher -/

/-- How a call of `waitpid` ends: it returns a pid, or it reads `targets`
outside the part that was filled (line 127), or the loop of lines 139-152 is
still running when the iteration budget is used up. -/
inductive WaitRet where
  | pid (p : Int)
  | outOfBounds (index : Int)
  | outOfFuel
deriving DecidableEq

structure WaitResult (W : Type) where
  sys : Sys W
  stat_loc : Option Int
  ret : WaitRet

/-- The outcome of the loop of lines 113-117. -/
inductive Scan (W : Type) where
  | reaped (r : PollResult W)
  | targets (s : Sys W) (stat_loc : Option Int) (targets : List Nat)

/-- The state a scan ends in. -/
def Scan.sys : Scan W → Sys W
  | .reaped r => r.sys
  | .targets s _ _ => s

/-- Lines 113-117, over the slots with the given indices: slots that are free
or locked are skipped, a child that has ended is reaped and returned, the
handles of the others are collected. -/
def collectTargets (os : Win32 W) : List Nat → Sys W → Option Int → List Nat → Scan W
  | [], s, stat_loc, targets => .targets s stat_loc targets
  | i :: is, s, stat_loc, targets =>
    if (slot s.table i).pid = 0 ∨ (slot s.table i).pid < 0 then
      collectTargets os is s stat_loc targets
    else
      let r := poll_child_status os s i stat_loc
      if r.pid ≠ 0 then .reaped r
      else collectTargets os is r.sys r.stat_loc (targets ++ [(slot r.sys.table i).hProcess])

/-- The read `targets[ret]` of line 127: defined for the entries that were
filled, `none` for an index below zero or past them. -/
def readTargets (targets : List Nat) (ret : Int) : Option Nat :=
  if 0 ≤ ret then targets[ret.toNat]? else none

/-- Lines 139-154: the loop on one child. `retried` counts the native waits that
came back without the handle being signalled. -/
def waitLoop (C : Consts) (os : Win32 W) (child : Nat) (options : Int) (timeout : Nat) :
    Nat → Sys W → Option Int → Nat → WaitResult W
  | 0, s, stat_loc, _ => ⟨s, stat_loc, .outOfFuel⟩
  | fuel + 1, s, stat_loc, retried =>
    let r := poll_child_status os s child stat_loc
    if r.pid ≠ 0 then
      ⟨r.sys, r.stat_loc, .pid (if r.pid = -1 ∧ retried ≠ 0 then 0 else r.pid)⟩
    else
      let waited :=
        Sys.WaitForMultipleObjects os r.sys [(slot r.sys.table child).hProcess] false timeout
      let ret : Int := toInt waited.2
      if toDWORD ret = WAIT_OBJECT_0 + 1 then ⟨waited.1, r.stat_loc, .pid (-1)⟩
      else if toDWORD ret ≠ WAIT_OBJECT_0 then
        if Int.land options C.WNOHANG ≠ 0 then ⟨waited.1, r.stat_loc, .pid 0⟩
        else waitLoop C os child options timeout fuel waited.1 r.stat_loc (retried + 1)
      else waitLoop C os child options timeout fuel waited.1 r.stat_loc retried

/-- Lines 100-105: the timeout of the native waits of `waitpid`. -/
def waitTimeout (C : Consts) (options : Int) : Nat :=
  if options = C.WNOHANG then 0 else INFINITE

/-- The assignment `ret -= d` of an `int` and a `DWORD` (line 124): the
difference is taken in `DWORD` arithmetic and converted back to `int`. -/
def subDWORD (ret : Int) (d : Nat) : Int := toInt (toDWORD (ret - (d : Int)))

/-- Lines 119-130: after the scan, one native wait on all collected handles. -/
def waitAny (os : Win32 W) (s : Sys W) (stat_loc : Option Int) (targets : List Nat)
    (timeout : Nat) : WaitResult W :=
  let count : Int := targets.length
  if count = 0 then ⟨s, stat_loc, .pid (-1)⟩
  else
    let waited := Sys.WaitForMultipleObjects os s targets false timeout
    let ret : Int := toInt waited.2
    if ret = WAIT_TIMEOUT then ⟨waited.1, stat_loc, .pid 0⟩
    else
      let ret : Int := subDWORD ret WAIT_OBJECT_0
      if ret = count then ⟨waited.1, stat_loc, .pid (-1)⟩
      else if ret > count then ⟨waited.1, stat_loc, .pid (-1)⟩
      else
        match readTargets targets ret with
        | none => ⟨waited.1, stat_loc, .outOfBounds ret⟩
        | some h =>
          match FindChildSlotByHandle waited.1.table h with
          | none => ⟨waited.1, stat_loc, .pid (-1)⟩
          | some cause =>
            let r := poll_child_status os waited.1 cause stat_loc
            ⟨r.sys, r.stat_loc, .pid r.pid⟩

/-- Lines 93-158. `fuel` bounds the iterations of the loop of lines 139-152. -/
def waitpid (C : Consts) (os : Win32 W) (fuel : Nat) (s : Sys W) (pid : Int)
    (stat_loc : Option Int) (options : Int) : WaitResult W :=
  let timeout : Nat := waitTimeout C options
  if pid = -1 then
    match collectTargets os (List.range s.table.length) s stat_loc [] with
    | .reaped r => ⟨r.sys, r.stat_loc, .pid r.pid⟩
    | .targets s1 st targets => waitAny os s1 st targets timeout
  else
    match FindChildSlot s.table pid with
    | none => ⟨s, stat_loc, .pid (-1)⟩
    | some child =>
      if (slot s.table child).hProcess = INVALID_HANDLE_VALUE then ⟨s, stat_loc, .pid (-1)⟩
      else waitLoop C os child options timeout fuel s stat_loc 0

/-! ## The signal mapper -/

/-- Lines 212-224: the process behind `hProc` is ended if it is still active. -/
def terminateIfActive (os : Win32 W) (s : Sys W) (hProc : Nat) : Sys W × Int :=
  let query := Sys.GetExitCodeProcess os s hProc
  match query.2 with
  | none => (query.1, -1)
  | some status =>
    if status = STILL_ACTIVE then
      let ended := Sys.TerminateProcess os query.1 hProc 0
      (ended.1, if ended.2 then 0 else -1)
    else (query.1, -1)

/-- Lines 198-231, the case `SIGKILL` of `kill`. -/
def killChild (os : Win32 W) (s : Sys W) (pid : Int) : Sys W × Int :=
  match FindChildSlot s.table pid with
  | some child =>
    let hProc := (slot s.table child).hProcess
    if hProc = NULL ∨ hProc = INVALID_HANDLE_VALUE then (s, -1)
    else terminateIfActive os s hProc
  | none =>
    let opened :=
      Sys.OpenProcess os s (PROCESS_TERMINATE ||| PROCESS_QUERY_INFORMATION) false (toDWORD pid)
    let hProc := opened.2
    if hProc = NULL ∨ hProc = INVALID_HANDLE_VALUE then (opened.1, -1)
    else
      let r := terminateIfActive os opened.1 hProc
      (Sys.CloseHandle os r.1 hProc, r.2)

/-- Lines 160-238. -/
def kill (C : Consts) (os : Win32 W) (s : Sys W) (pid : Int) (sig : Int) : Sys W × Int :=
  if pid < 0 ∨ (pid = 0 ∧ sig ≠ C.SIGINT) then (s, -1)
  else
    let me := Sys.GetCurrentProcessId os s
    if toDWORD pid = me.2 ∧ (sig ≠ 0 ∧ sig ≠ C.SIGKILL) then Sys.raise os me.1 sig
    else if sig = 0 then
      let opened := Sys.OpenProcess os me.1 PROCESS_QUERY_INFORMATION false (toDWORD pid)
      if opened.2 = NULL ∨ opened.2 = INVALID_HANDLE_VALUE then (opened.1, -1)
      else (Sys.CloseHandle os opened.1 opened.2, 0)
    else if sig = C.SIGINT then
      let ctrlEvent := if pid ≠ 0 then CTRL_BREAK_EVENT else CTRL_C_EVENT
      let sent := Sys.GenerateConsoleCtrlEvent os me.1 ctrlEvent (toDWORD pid)
      (sent.1, if sent.2 then 0 else -1)
    else if sig = C.SIGKILL then killChild os me.1 pid
    else (me.1, -1)

/-! ## The child creator -/

/-- The size of `SECURITY_ATTRIBUTES` with 64-bit pointers. -/
def sizeof_SECURITY_ATTRIBUTES : Nat := 24
/-- The size of `STARTUPINFOW` with 64-bit pointers. -/
def sizeof_STARTUPINFOW : Nat := 104

/-- The length of a wide string; `lstrlenW(NULL)` is `0`. -/
def lstrlenW (str : Option WSTR) : Int :=
  match str with
  | none => 0
  | some l => l.length

/-- The arguments of one call of `CreateChild`. A handle argument that is `NULL`
stands for "use the standard handle". -/
structure CreateChildArgs where
  cmd : Option WSTR
  prog : Option WSTR
  psa : Option SECURITY_ATTRIBUTES
  hInput : Nat
  hOutput : Nat
  hError : Nat
  dwCreationFlags : Nat
deriving DecidableEq

/-- Lines 455-472: an explicit handle is used as it is, otherwise the standard
handle is asked for. -/
def stdHandle (os : Win32 W) (s : Sys W) (given : Nat) (which : Nat) : Sys W × Nat :=
  if given ≠ NULL then (s, given) else Sys.GetStdHandle os s which

/-- Lines 444-449: the security attributes used when the caller gives none. -/
def defaultSecurity : SECURITY_ATTRIBUTES :=
  { nLength := sizeof_SECURITY_ATTRIBUTES, lpSecurityDescriptor := 0, bInheritHandle := 1 }

/-- Lines 477 and 487: `child->pid = 0`, the handle field is left as it is. -/
def releaseSlot (s : Sys W) (child : Nat) : Sys W :=
  { s with table := s.table.set child { hProcess := (slot s.table child).hProcess, pid := 0 } }

/-- Lines 444-497, once a slot has been locked: the standard handles, the
length check, native creation, and the slot filled or released. -/
def launch (os : Win32 W) (s : Sys W) (child : Nat) (a : CreateChildArgs) : Sys W × Option Nat :=
  let sa := a.psa.getD defaultSecurity
  let i := stdHandle os s a.hInput STD_INPUT_HANDLE
  let o := stdHandle os i.1 a.hOutput STD_OUTPUT_HANDLE
  let e := stdHandle os o.1 a.hError STD_ERROR_HANDLE
  let flags := (a.dwCreationFlags ||| NORMAL_PRIORITY_CLASS) % 4294967296
  if lstrlenW a.cmd > MAXCMDLEN then (releaseSlot e.1 child, none)
  else
    let args : CreateProcessArgs :=
      { lpApplicationName := a.prog, lpCommandLine := a.cmd,
        lpProcessAttributes := sa, lpThreadAttributes := sa,
        bInheritHandles := sa.bInheritHandle, dwCreationFlags := flags,
        lpStartupInfo :=
          { cb := sizeof_STARTUPINFOW, dwFlags := STARTF_USESTDHANDLES,
            hStdInput := i.2, hStdOutput := o.2, hStdError := e.2 } }
    let created := Sys.CreateProcessW os e.1 args
    match created.2 with
    | none => (releaseSlot created.1 child, none)
    | some info =>
      let closed := Sys.CloseHandle os created.1 info.hThread
      ({ closed with table :=
          closed.table.set child { hProcess := info.hProcess, pid := toInt info.dwProcessId } },
        some child)

/-- Lines 425-497. -/
def CreateChild (os : Win32 W) (s : Sys W) (a : CreateChildArgs) : Sys W × Option Nat :=
  if a.cmd.isNone ∧ a.prog.isNone then (s, none)
  else
    match FindFreeChildSlot s.table with
    | (_, none) => (s, none)
    | (locked, some child) => launch os { s with table := locked } child a

/-! ## Callers and predicates used in the statements -/

/-- A caller that issues the given `CreateChild` calls one after the other and
keeps what each call returned. -/
def createAll (os : Win32 W) : Sys W → List CreateChildArgs → Sys W × List (Option Nat)
  | s, [] => (s, [])
  | s, a :: rest =>
    let first := CreateChild os s a
    let others := createAll os first.1 rest
    (others.1, first.2 :: others.2)

/-- The native waits among the logged calls. -/
def Event.isWait : Event → Bool
  | .WaitForSingleObject _ _ _ => true
  | .WaitForMultipleObjects _ _ _ _ => true
  | _ => false

/-- The logged calls that close a handle. -/
def Event.isClose : Event → Bool
  | .CloseHandle _ => true
  | _ => false

/-- A native wait of the loop of `waitpid` that was retried: a logged
`WaitForMultipleObjects` whose answer, read as line 143 reads it, is not
`WAIT_OBJECT_0`. -/
def Event.isRetry : Event → Bool
  | .WaitForMultipleObjects _ _ _ answer => decide (toDWORD (toInt answer) ≠ WAIT_OBJECT_0)
  | _ => false

/-- Not a native process creation that has failed or has delivered a process
id that is not positive as a `pid_t`. -/
def Event.creationOk : Event → Bool
  | .CreateProcessW _ (some info) => decide (0 < toInt info.dwProcessId)
  | .CreateProcessW _ none => false
  | _ => true

/-- The decoding the specification names for a wait status: the status
shifted right by 8 bits (an arithmetic shift, the status being an `int`). -/
def decodeStatus (status : Int) : Int := status >>> (8 : Nat)

/-- Section 3 of the specification: a slot's handle is non-NULL exactly when
its pid is positive. -/
def HandleIffLive (t : List ChildRecord) : Prop :=
  ∀ c ∈ t, (c.hProcess ≠ NULL ↔ 0 < c.pid)

/-- The states a slot can be in by section 3 of the specification: free
(`pid = 0`, no handle), locked (`pid = -1`) or live (`pid > 0`). -/
def SlotStates (t : List ChildRecord) : Prop :=
  ∀ c ∈ t, -1 ≤ c.pid ∧ (c.pid = 0 → c.hProcess = NULL)

/-- A handle the system can work on: neither `NULL` nor `INVALID_HANDLE_VALUE`
(lines 181 and 208). -/
def usable (h : Nat) : Prop := h ≠ NULL ∧ h ≠ INVALID_HANDLE_VALUE

instance usable.decidable (h : Nat) : Decidable (usable h) := by
  unfold usable; infer_instance

/-! ## Two concrete systems, for running the code on examples -/

/-- The answers a scripted system still has to give, one queue per native
call. -/
structure Script where
  exitCodes : List (Option Nat)
  waits : List Nat
  opens : List Nat
  terminates : List Bool
  creates : List (Option PROCESS_INFORMATION)
deriving DecidableEq

/-- A system that answers from a script. An exit-code query on the `NULL`
handle fails; on `INVALID_HANDLE_VALUE`, which a Windows system reads as the
pseudo-handle of the calling process, it reports `STILL_ACTIVE`. A call whose
queue is used up fails. -/
def scripted : Win32 Script where
  GetExitCodeProcess w h :=
    if h = NULL then (w, none)
    else if h = INVALID_HANDLE_VALUE then (w, some STILL_ACTIVE)
    else ({ w with exitCodes := w.exitCodes.tail }, w.exitCodes.head?.getD none)
  WaitForSingleObject w _ _ := ({ w with waits := w.waits.tail }, w.waits.head?.getD WAIT_FAILED)
  WaitForMultipleObjects w _ _ _ :=
    ({ w with waits := w.waits.tail }, w.waits.head?.getD WAIT_FAILED)
  CloseHandle w _ := w
  OpenProcess w _ _ _ := ({ w with opens := w.opens.tail }, w.opens.head?.getD NULL)
  TerminateProcess w _ _ :=
    ({ w with terminates := w.terminates.tail }, w.terminates.head?.getD false)
  GenerateConsoleCtrlEvent w _ _ := (w, true)
  GetCurrentProcessId w := (w, 4000)
  raise w _ := (w, 0)
  GetStdHandle w n := (w, n % 16 + 1)
  CreateProcessW w _ := ({ w with creates := w.creates.tail }, w.creates.head?.getD none)

/-- A system in which process creation always succeeds; the world counts the
processes created so far. The other calls fail. -/
def spawning : Win32 Nat where
  GetExitCodeProcess w _ := (w, none)
  WaitForSingleObject w _ _ := (w, WAIT_FAILED)
  WaitForMultipleObjects w _ _ _ := (w, WAIT_FAILED)
  CloseHandle w _ := w
  OpenProcess w _ _ _ := (w, NULL)
  TerminateProcess w _ _ := (w, false)
  GenerateConsoleCtrlEvent w _ _ := (w, true)
  GetCurrentProcessId w := (w, 4000)
  raise w _ := (w, 0)
  GetStdHandle w n := (w, n % 16 + 1)
  CreateProcessW w _ :=
    (w + 1, some { hProcess := 8 * w + 8, hThread := 8 * w + 12,
                   dwProcessId := 4 * (w % 1000) + 4, dwThreadId := 4 * (w % 1000) + 6 })

/-- The usual values: `WNOHANG` 1, `SIGINT` 2, `SIGKILL` 9. -/
def posix : Consts :=
  { WNOHANG := 1, SIGINT := 2, SIGKILL := 9, sigint_ne_zero := by decide,
    sigkill_ne_zero := by decide, sigkill_ne_sigint := by decide }

/-- A script with nothing in it. -/
def Script.empty : Script :=
  { exitCodes := [], waits := [], opens := [], terminates := [], creates := [] }

/-- A command line of one character, everything else left to the defaults. -/
def plainCommand : CreateChildArgs :=
  { cmd := some [97], prog := none, psa := none, hInput := NULL, hOutput := NULL,
    hError := NULL, dwCreationFlags := 0 }

/-! ## Lists and slots -/

theorem slot_append_cons (pre post : List ChildRecord) (c : ChildRecord) :
    slot (pre ++ c :: post) pre.length = c := by
  induction pre with
  | nil => simp [slot]
  | cons x xs ih => simpa [slot] using ih

theorem set_append_cons (pre post : List ChildRecord) (c d : ChildRecord) :
    (pre ++ c :: post).set pre.length d = pre ++ d :: post := by
  induction pre with
  | nil => simp
  | cons x xs ih => simp [ih]

theorem findFirst_append (p : ChildRecord → Bool) (pre post : List ChildRecord) (c : ChildRecord)
    (hpre : ∀ x ∈ pre, p x = false) (hc : p c = true) :
    findFirst p (pre ++ c :: post) = some pre.length := by
  induction pre with
  | nil => simp [findFirst, hc]
  | cons x xs ih =>
    have hx : p x = false := hpre x (by simp)
    have := ih (fun y hy => hpre y (by simp [hy]))
    simp [findFirst, hx, this]

theorem findFirst_eq_none (p : ChildRecord → Bool) (t : List ChildRecord)
    (h : ∀ x ∈ t, p x = false) : findFirst p t = none := by
  induction t with
  | nil => simp [findFirst]
  | cons x xs ih =>
    have hx : p x = false := h x (by simp)
    have := ih (fun y hy => h y (by simp [hy]))
    simp [findFirst, hx, this]

/-- A slot that `findFirst` returns satisfies the test, and no slot before it does. -/
theorem findFirst_some (p : ChildRecord → Bool) (t : List ChildRecord) (i : Nat)
    (h : findFirst p t = some i) :
    ∃ pre post, t = pre ++ slot t i :: post ∧ pre.length = i ∧ p (slot t i) = true ∧
      ∀ x ∈ pre, p x = false := by
  induction t generalizing i with
  | nil => simp [findFirst] at h
  | cons x xs ih =>
    by_cases hx : p x = true
    · simp [findFirst, hx] at h
      subst h
      exact ⟨[], xs, by simp [slot], rfl, by simpa [slot] using hx, by simp⟩
    · simp only [Bool.not_eq_true] at hx
      simp [findFirst, hx] at h
      obtain ⟨j, hj, rfl⟩ := h
      obtain ⟨pre, post, ht, hlen, hp, hall⟩ := ih j hj
      refine ⟨x :: pre, post, ?_, by simp [hlen], by simpa [slot] using hp, ?_⟩
      · have : slot (x :: xs) (j + 1) = slot xs j := by simp [slot]
        rw [this]; simp; exact ht
      · intro y hy
        rcases List.mem_cons.mp hy with rfl | hy
        · exact hx
        · exact hall y hy

/-! ## C1: a child that has ended is reaped by exactly one wait -/

/-- C1. In a table where exactly one slot holds the pid `p > 0` and the process
of that slot has ended (the exit-code query on its handle succeeds with a code
other than `STILL_ACTIVE` and the finalizing wait is signalled),
`waitpid(p, stat_loc, options)` returns `p` and stores the encoded exit code;
afterwards that slot is `(NULL, 0)` and every other slot is as before; and
every further `waitpid(p, ...)` on the resulting state returns `-1` and changes
nothing. The system is any system on which `INVALID_HANDLE_VALUE`, the
pseudo-handle of the calling process, is never reported as ended. -/
theorem waitpid_reaps_exited_child_once (C : Consts) (os : Win32 W) (w w1 w2 : W)
    (tr : List Event) (pre post : List ChildRecord) (h : Nat) (p : Int) (E : Nat)
    (stat_loc : Option Int) (options : Int) (fuel : Nat)
    (hpseudo : ∀ w0 E0, (os.GetExitCodeProcess w0 INVALID_HANDLE_VALUE).2 = some E0 →
      E0 = STILL_ACTIVE)
    (hp : 0 < p) (honly : ∀ c ∈ pre ++ post, c.pid ≠ p)
    (hquery : os.GetExitCodeProcess w h = (w1, some E)) (hE : E ≠ STILL_ACTIVE)
    (hwait : os.WaitForSingleObject w1 h INFINITE = (w2, WAIT_OBJECT_0)) :
    (waitpid C os (fuel + 1) ⟨pre ++ ⟨h, p⟩ :: post, w, tr⟩ p stat_loc options).ret = .pid p ∧
    (waitpid C os (fuel + 1) ⟨pre ++ ⟨h, p⟩ :: post, w, tr⟩ p stat_loc options).stat_loc
      = stat_loc.map (fun _ => encodeStatus E) ∧
    (waitpid C os (fuel + 1) ⟨pre ++ ⟨h, p⟩ :: post, w, tr⟩ p stat_loc options).sys.table
      = pre ++ ⟨NULL, 0⟩ :: post ∧
    ∀ (fuel2 : Nat) (stat_loc2 : Option Int) (options2 : Int),
      (waitpid C os fuel2
        (waitpid C os (fuel + 1) ⟨pre ++ ⟨h, p⟩ :: post, w, tr⟩ p stat_loc options).sys
        p stat_loc2 options2).ret = .pid (-1) ∧
      (waitpid C os fuel2
        (waitpid C os (fuel + 1) ⟨pre ++ ⟨h, p⟩ :: post, w, tr⟩ p stat_loc options).sys
        p stat_loc2 options2).sys
        = (waitpid C os (fuel + 1) ⟨pre ++ ⟨h, p⟩ :: post, w, tr⟩ p stat_loc options).sys := by
  have hp1 : p ≠ -1 := by omega
  have hp0 : p ≠ 0 := by omega
  have hh : h ≠ INVALID_HANDLE_VALUE := by
    intro e
    subst e
    exact hE (hpseudo w E (by rw [hquery]))
  have hfind : FindChildSlot (pre ++ ⟨h, p⟩ :: post) p = some pre.length := by
    apply findFirst_append
    · intro x hx
      have hx1 : x.pid ≠ p := honly x (List.mem_append.mpr (Or.inl hx))
      simp [hp1, hx1]
    · simp
  have hrun : waitpid C os (fuel + 1) ⟨pre ++ ⟨h, p⟩ :: post, w, tr⟩ p stat_loc options
      = ⟨⟨pre ++ ⟨NULL, 0⟩ :: post, os.CloseHandle w2 h,
          Event.CloseHandle h :: Event.WaitForSingleObject h INFINITE WAIT_OBJECT_0
            :: Event.GetExitCodeProcess h (some E) :: tr⟩,
         stat_loc.map (fun _ => encodeStatus E), .pid p⟩ := by
    simp [waitpid, hp1, hfind, slot_append_cons, hh, waitLoop, poll_child_status,
      Sys.GetExitCodeProcess, hquery, hE, Sys.WaitForSingleObject, hwait, CloseChildHandle,
      Sys.CloseHandle, set_append_cons, hp0]
  rw [hrun]
  refine ⟨rfl, rfl, rfl, ?_⟩
  intro fuel2 stat_loc2 options2
  have hnone : FindChildSlot (pre ++ ⟨NULL, 0⟩ :: post) p = none := by
    apply findFirst_eq_none
    intro x hx
    have hx1 : x.pid ≠ p := by
      rcases List.mem_append.mp hx with h1 | h1
      · exact honly x (List.mem_append.mpr (Or.inl h1))
      · rcases List.mem_cons.mp h1 with rfl | h2
        · exact fun h0 => hp0 h0.symm
        · exact honly x (List.mem_append.mpr (Or.inr h2))
    simp [hp1, hx1]
  simp [waitpid, hp1, hnone]

/-- C1 at a concrete input: a table with the child `5` on handle `100`, which
has ended with exit code `7`. -/
theorem waitpid_reaps_exited_child_once_witness :
    (0 : Int) < 5 ∧
    (waitpid posix scripted 1
      ⟨[⟨100, 5⟩, ⟨0, 0⟩], { Script.empty with exitCodes := [some 7], waits := [WAIT_OBJECT_0] },
        []⟩ 5 (some 0) 0).ret = .pid 5 :=
  ⟨by decide,
    (waitpid_reaps_exited_child_once posix scripted
      { Script.empty with exitCodes := [some 7], waits := [WAIT_OBJECT_0] }
      { Script.empty with waits := [WAIT_OBJECT_0] } Script.empty [] [] [⟨0, 0⟩] 100 5 7
      (some 0) 0 0 (fun _ _ h => by simpa [scripted, NULL, INVALID_HANDLE_VALUE] using h.symm)
      (by decide) (by decide) rfl (by decide) rfl).1⟩

/-! ## C2: the encoded status -/

theorem encodeStatus_eq (E : Nat) : encodeStatus E = toInt (E * 256 % 2 ^ 32) := by
  simp [encodeStatus, Nat.shiftLeft_eq]

theorem decode_encode_iff (E : Nat) (h32 : E < 2 ^ 32) :
    decodeStatus (encodeStatus E) = E ↔ E < 2 ^ 23 := by
  rw [encodeStatus_eq]
  unfold decodeStatus toInt
  rw [Int.shiftRight_eq_div_pow]
  norm_num at *
  split <;> omega

/-- C2 fails as stated: a child that ended with the exit code `0xC0000005`
(3221225477) is reaped with the status `0x500`, and that status shifted right
by 8 bits is `5`, not the exit code. -/
theorem status_of_large_exit_code_does_not_decode :
    (poll_child_status scripted
      ⟨[⟨100, 5⟩], { Script.empty with exitCodes := [some 3221225477], waits := [WAIT_OBJECT_0] },
        []⟩ 0 (some 0)).stat_loc = some 1280 ∧
    ¬ decodeStatus 1280 = 3221225477 := by
  decide

/-- C2 as amended. When a child has ended with the native exit code `E` (a
32-bit value other than `STILL_ACTIVE`) and `stat_loc` is not `NULL`,
`poll_child_status` stores `E << 8` computed in 32 bits; shifting that status
right by 8 bits gives back `E` exactly when `E < 2 ^ 23`. -/
theorem poll_child_status_stores_shifted_exit_code (os : Win32 W) (s : Sys W) (child : Nat)
    (old : Int) (w1 w2 : W) (E : Nat) (h32 : E < 2 ^ 32) (hE : E ≠ STILL_ACTIVE)
    (hquery : os.GetExitCodeProcess s.world (slot s.table child).hProcess = (w1, some E))
    (hwait : os.WaitForSingleObject w1 (slot s.table child).hProcess INFINITE
      = (w2, WAIT_OBJECT_0)) :
    (poll_child_status os s child (some old)).stat_loc = some (encodeStatus E) ∧
    encodeStatus E = toInt (E * 256 % 2 ^ 32) ∧
    (decodeStatus (encodeStatus E) = E ↔ E < 2 ^ 23) := by
  refine ⟨?_, encodeStatus_eq E, decode_encode_iff E h32⟩
  simp [poll_child_status, Sys.GetExitCodeProcess, hquery, hE, Sys.WaitForSingleObject, hwait]

/-- C2 as amended, at a concrete input: exit code `7`. -/
theorem poll_child_status_stores_shifted_exit_code_witness :
    (poll_child_status scripted
      ⟨[⟨100, 5⟩], { Script.empty with exitCodes := [some 7], waits := [WAIT_OBJECT_0] }, []⟩
      0 (some 0)).stat_loc = some 1792 ∧ decodeStatus 1792 = 7 :=
  ⟨(poll_child_status_stores_shifted_exit_code scripted
      ⟨[⟨100, 5⟩], { Script.empty with exitCodes := [some 7], waits := [WAIT_OBJECT_0] }, []⟩
      0 0 { Script.empty with waits := [WAIT_OBJECT_0] } Script.empty 7 (by decide) (by decide)
      rfl rfl).1, by decide⟩

/-! ## C4: waiting for a pid that is not a live child -/

/-- C4. In a table whose slots are free, locked or live, on a system that
refuses an exit-code query on the `NULL` handle, `waitpid` for a pid other than
`-1` that no live slot holds returns `-1` and makes no native wait call,
whatever the options. For a pid other than `0` it makes no native call at all
and leaves the state as it is. (For pid `0` the first free slot is found and
polled: the query on its `NULL` handle fails.) -/
theorem waitpid_without_live_child (C : Consts) (os : Win32 W) (s : Sys W) (pid : Int)
    (stat_loc : Option Int) (options : Int) (fuel : Nat)
    (hany : pid ≠ -1) (hpid : ∀ c ∈ s.table, 0 < c.pid → c.pid ≠ pid)
    (hstates : SlotStates s.table)
    (hnull : ∀ w, (os.GetExitCodeProcess w NULL).2 = none) :
    (waitpid C os (fuel + 1) s pid stat_loc options).ret = .pid (-1) ∧
    (∃ evs, (waitpid C os (fuel + 1) s pid stat_loc options).sys.trace = evs ++ s.trace ∧
      ∀ e ∈ evs, e.isWait = false) ∧
    (pid ≠ 0 → (waitpid C os (fuel + 1) s pid stat_loc options).sys = s) := by
  cases hfind : FindChildSlot s.table pid with
  | none =>
    refine ⟨by simp [waitpid, hany, hfind], ⟨[], by simp [waitpid, hany, hfind], by simp⟩,
      fun _ => by simp [waitpid, hany, hfind]⟩
  | some i =>
    obtain ⟨pre, post, ht, -, hp, -⟩ := findFirst_some _ _ _ hfind
    have hmem : slot s.table i ∈ s.table := by
      have hin : slot s.table i ∈ pre ++ slot s.table i :: post := by simp
      rwa [← ht] at hin
    have hpid_eq : (slot s.table i).pid = pid := by simpa [hany] using hp
    obtain ⟨hge, hfree⟩ := hstates _ hmem
    have hzero : (slot s.table i).pid = 0 := by
      by_contra hne
      have hpos : 0 < (slot s.table i).pid := by
        rw [hpid_eq] at hge hne ⊢
        omega
      exact hpid _ hmem hpos hpid_eq
    have hh : (slot s.table i).hProcess = NULL := hfree hzero
    have hinv : NULL ≠ INVALID_HANDLE_VALUE := by decide
    have hq := hnull s.world
    refine ⟨?_, ⟨[Event.CloseHandle NULL, Event.GetExitCodeProcess NULL none], ?_, ?_⟩,
      fun hne => absurd (hpid_eq.symm.trans hzero) hne⟩
    · simp [waitpid, hany, hfind, hh, hinv, waitLoop, poll_child_status,
        Sys.GetExitCodeProcess, hq]
    · simp [waitpid, hany, hfind, hh, hinv, waitLoop, poll_child_status,
        Sys.GetExitCodeProcess, hq, CloseChildHandle, Sys.CloseHandle]
    · simp [Event.isWait]

/-- C4 at a concrete input: pid `0` on a table with a live child and a free
slot. -/
theorem waitpid_without_live_child_witness :
    (waitpid posix scripted 1 ⟨[⟨100, 5⟩, ⟨0, 0⟩], Script.empty, []⟩ 0 none 0).ret
      = .pid (-1) :=
  (waitpid_without_live_child posix scripted ⟨[⟨100, 5⟩, ⟨0, 0⟩], Script.empty, []⟩ 0 none 0 0
    (by decide) (by decide) (by simp [SlotStates, NULL]) (fun _ => rfl)).1

/-! ## C5: the timeout of the native waits -/

/-- The log only grows: the old log is the tail of the new one. -/
theorem CloseChildHandle_trace (os : Win32 W) (s : Sys W) (child : Nat) :
    s.trace <:+ (CloseChildHandle os s child).trace :=
  List.suffix_cons _ _

theorem poll_child_status_trace (os : Win32 W) (s : Sys W) (child : Nat)
    (stat_loc : Option Int) :
    s.trace <:+ (poll_child_status os s child stat_loc).sys.trace := by
  unfold poll_child_status
  dsimp only
  split
  · exact (List.suffix_cons _ _).trans (List.suffix_cons _ _)
  · split
    · split
      · exact (List.suffix_cons _ _).trans ((List.suffix_cons _ _).trans (List.suffix_cons _ _))
      · exact (List.suffix_cons _ _).trans ((List.suffix_cons _ _).trans (List.suffix_cons _ _))
    · exact List.suffix_cons _ _

theorem waitLoop_trace (C : Consts) (os : Win32 W) (child : Nat) (options : Int)
    (timeout : Nat) (fuel : Nat) :
    ∀ (s : Sys W) (stat_loc : Option Int) (retried : Nat),
      s.trace <:+ (waitLoop C os child options timeout fuel s stat_loc retried).sys.trace := by
  induction fuel with
  | zero => intro s stat_loc retried; exact List.suffix_refl _
  | succ n ih =>
    intro s stat_loc retried
    have hp := poll_child_status_trace os s child stat_loc
    have hw : s.trace <:+ (Sys.WaitForMultipleObjects os (poll_child_status os s child stat_loc).sys
        [(slot (poll_child_status os s child stat_loc).sys.table child).hProcess] false
        timeout).1.trace := hp.trans (List.suffix_cons _ _)
    unfold waitLoop
    dsimp only
    repeat' split
    all_goals first
      | exact hp
      | exact hw
      | exact hw.trans (ih _ _ _)

/-- C5, what the code does instead. For every options value other than
`WNOHANG` itself, also one in which the flag `WNOHANG` is set beside another
bit, `waitpid` on a tracked child that is still active hands the timeout
`INFINITE` to the native wait of its loop. -/
theorem waitpid_timeout_unless_options_is_WNOHANG (C : Consts) (os : Win32 W) (s : Sys W)
    (pid : Int) (child : Nat) (stat_loc : Option Int) (options : Int) (fuel : Nat)
    (hne : options ≠ C.WNOHANG) (hany : pid ≠ -1)
    (hfind : FindChildSlot s.table pid = some child)
    (hh : (slot s.table child).hProcess ≠ INVALID_HANDLE_VALUE)
    (hactive : (os.GetExitCodeProcess s.world (slot s.table child).hProcess).2
      = some STILL_ACTIVE) :
    ∃ answer, Event.WaitForMultipleObjects [(slot s.table child).hProcess] false INFINITE answer
      ∈ (waitpid C os (fuel + 1) s pid stat_loc options).sys.trace := by
  have hpoll : poll_child_status os s child stat_loc
      = ⟨(Sys.GetExitCodeProcess os s (slot s.table child).hProcess).1, stat_loc, 0⟩ := by
    simp [poll_child_status, Sys.GetExitCodeProcess, hactive]
  refine ⟨(os.WaitForMultipleObjects
    (Sys.GetExitCodeProcess os s (slot s.table child).hProcess).1.world
    [(slot s.table child).hProcess] false INFINITE).2, ?_⟩
  have hmem : Event.WaitForMultipleObjects [(slot s.table child).hProcess] false INFINITE
      (os.WaitForMultipleObjects
        (Sys.GetExitCodeProcess os s (slot s.table child).hProcess).1.world
        [(slot s.table child).hProcess] false INFINITE).2
      ∈ (Sys.WaitForMultipleObjects os
          (Sys.GetExitCodeProcess os s (slot s.table child).hProcess).1
          [(slot s.table child).hProcess] false INFINITE).1.trace := by
    simp [Sys.WaitForMultipleObjects]
  have hrun : waitpid C os (fuel + 1) s pid stat_loc options
      = waitLoop C os child options INFINITE (fuel + 1) s stat_loc 0 := by
    simp [waitpid, hany, hfind, hh, waitTimeout, hne]
  rw [hrun]
  unfold waitLoop
  rw [hpoll]
  dsimp only
  have htab : (Sys.GetExitCodeProcess os s (slot s.table child).hProcess).1.table = s.table := rfl
  rw [htab]
  simp only [ne_eq, not_true_eq_false, if_false]
  repeat' split
  all_goals first
    | exact hmem
    | exact (waitLoop_trace C os child options INFINITE fuel _ _ _).subset hmem

/-- C5 at the failing input, with `WNOHANG = 1`: `waitpid(5, NULL, 3)` on a
child that is still running. The flag `WNOHANG` is set in `options = 3`, and
the native wait is called with the timeout `INFINITE`. -/
theorem waitpid_timeout_unless_options_is_WNOHANG_witness :
    Int.land 3 posix.WNOHANG ≠ 0 ∧
    ∃ answer, Event.WaitForMultipleObjects [100] false INFINITE answer
      ∈ (waitpid posix scripted 2
          ⟨[⟨100, 5⟩],
            { Script.empty with exitCodes := [some STILL_ACTIVE, some 0],
                                waits := [WAIT_OBJECT_0, WAIT_OBJECT_0] }, []⟩
          5 none 3).sys.trace :=
  ⟨by decide,
    waitpid_timeout_unless_options_is_WNOHANG posix scripted
      ⟨[⟨100, 5⟩],
        { Script.empty with exitCodes := [some STILL_ACTIVE, some 0],
                            waits := [WAIT_OBJECT_0, WAIT_OBJECT_0] }, []⟩
      5 0 none 3 1 (by decide) (by decide) rfl (by decide) rfl⟩

/-- The same run, call by call: the exit-code query reports `STILL_ACTIVE`,
the native wait is made with `INFINITE` and comes back when the child has
ended, and the child is reaped. Line 101 tests `options == WNOHANG`, line 146
tests `options & WNOHANG`. -/
theorem waitpid_flag_among_others_waits_without_limit :
    (waitpid posix scripted 2
      ⟨[⟨100, 5⟩],
        { Script.empty with exitCodes := [some STILL_ACTIVE, some 0],
                            waits := [WAIT_OBJECT_0, WAIT_OBJECT_0] }, []⟩ 5 none 3).sys.trace
      = [Event.CloseHandle 100, Event.WaitForSingleObject 100 INFINITE WAIT_OBJECT_0,
         Event.GetExitCodeProcess 100 (some 0),
         Event.WaitForMultipleObjects [100] false INFINITE WAIT_OBJECT_0,
         Event.GetExitCodeProcess 100 (some STILL_ACTIVE)] := by
  decide

/-! ## C8: a failure of the status reaper inside the wait loop -/

/-- C8 fails as stated: the child `5` is still active at the first poll, the
blocking native wait comes back with `WAIT_FAILED` (one retry), and at the
second poll the exit-code query fails, so `poll_child_status` reports `-1`;
`waitpid` returns `0`. -/
theorem waitpid_turns_poll_failure_into_zero :
    (poll_child_status scripted
      ⟨[⟨100, 5⟩], { Script.empty with exitCodes := [none] }, []⟩ 0 none).pid = -1 ∧
    (waitpid posix scripted 2
      ⟨[⟨100, 5⟩],
        { Script.empty with exitCodes := [some STILL_ACTIVE, none], waits := [WAIT_FAILED] },
        []⟩ 5 none 0).sys.trace
      = [Event.CloseHandle 100, Event.GetExitCodeProcess 100 none,
         Event.WaitForMultipleObjects [100] false INFINITE WAIT_FAILED,
         Event.GetExitCodeProcess 100 (some STILL_ACTIVE)] ∧
    (waitpid posix scripted 2
      ⟨[⟨100, 5⟩],
        { Script.empty with exitCodes := [some STILL_ACTIVE, none], waits := [WAIT_FAILED] },
        []⟩ 5 none 0).ret = .pid 0 := by
  decide

/-- What `poll_child_status` adds to the log holds no retried native wait. -/
theorem poll_child_status_events (os : Win32 W) (s : Sys W) (child : Nat)
    (stat_loc : Option Int) :
    ∃ evs, (poll_child_status os s child stat_loc).sys.trace = evs ++ s.trace ∧
      evs.countP Event.isRetry = 0 := by
  unfold poll_child_status
  dsimp only
  split
  · exact ⟨[_, _], rfl, rfl⟩
  · split
    · split
      · exact ⟨[_, _, _], rfl, rfl⟩
      · exact ⟨[_, _, _], rfl, rfl⟩
    · exact ⟨[_], rfl, rfl⟩

/-- A loop that is still running after `n` passes goes on from the state it
has reached, with one retry counted for each retried native wait in the log of
those passes. -/
theorem waitLoop_resume (C : Consts) (os : Win32 W) (child : Nat) (options : Int)
    (timeout : Nat) (n : Nat) :
    ∀ (s : Sys W) (st : Option Int) (retried : Nat) (s1 : Sys W) (st1 : Option Int),
      waitLoop C os child options timeout n s st retried = ⟨s1, st1, .outOfFuel⟩ →
      ∃ evs, s1.trace = evs ++ s.trace ∧
        ∀ m, waitLoop C os child options timeout (n + m) s st retried
          = waitLoop C os child options timeout m s1 st1 (retried + evs.countP Event.isRetry) := by
  induction n with
  | zero =>
    intro s st retried s1 st1 h
    simp only [waitLoop, WaitResult.mk.injEq, and_true] at h
    obtain ⟨rfl, rfl⟩ := h
    exact ⟨[], by simp, by simp⟩
  | succ n ih =>
    intro s st retried s1 st1 h
    obtain ⟨pevs, hp, hpc⟩ := poll_child_status_events os s child st
    rw [waitLoop] at h
    dsimp only at h
    by_cases h0 : (poll_child_status os s child st).pid ≠ 0
    · simp [h0] at h
    · rw [if_neg h0] at h
      by_cases h1 : toDWORD (toInt (Sys.WaitForMultipleObjects os (poll_child_status os s child st).sys
          [(slot (poll_child_status os s child st).sys.table child).hProcess] false timeout).2)
          = WAIT_OBJECT_0 + 1
      · simp [h1] at h
      · rw [if_neg h1] at h
        by_cases h2 : toDWORD (toInt (Sys.WaitForMultipleObjects os
            (poll_child_status os s child st).sys
            [(slot (poll_child_status os s child st).sys.table child).hProcess] false timeout).2)
            ≠ WAIT_OBJECT_0
        · rw [if_pos h2] at h
          by_cases h3 : Int.land options C.WNOHANG ≠ 0
          · simp [h3] at h
          · rw [if_neg h3] at h
            obtain ⟨evs, he, hm⟩ := ih _ _ _ _ _ h
            refine ⟨evs ++ Event.WaitForMultipleObjects
              [(slot (poll_child_status os s child st).sys.table child).hProcess] false timeout
              (os.WaitForMultipleObjects (poll_child_status os s child st).sys.world
                [(slot (poll_child_status os s child st).sys.table child).hProcess] false
                timeout).2 :: pevs, ?_, ?_⟩
            · rw [he]; simp [Sys.WaitForMultipleObjects, hp]
            · intro m
              have hc : (evs ++ Event.WaitForMultipleObjects
                  [(slot (poll_child_status os s child st).sys.table child).hProcess] false timeout
                  (os.WaitForMultipleObjects (poll_child_status os s child st).sys.world
                    [(slot (poll_child_status os s child st).sys.table child).hProcess] false
                    timeout).2 :: pevs).countP Event.isRetry
                  = 1 + evs.countP Event.isRetry := by
                have : Event.isRetry (Event.WaitForMultipleObjects
                  [(slot (poll_child_status os s child st).sys.table child).hProcess] false timeout
                  (os.WaitForMultipleObjects (poll_child_status os s child st).sys.world
                    [(slot (poll_child_status os s child st).sys.table child).hProcess] false
                    timeout).2) = true := by
                  simpa [Event.isRetry, Sys.WaitForMultipleObjects] using h2
                simp [List.countP_append, List.countP_cons, this, hpc]
                omega
              rw [hc, Nat.succ_add, waitLoop]
              dsimp only
              rw [if_neg h0, if_neg h1, if_pos h2, if_neg h3, hm m]
              congr 1
              omega
        · rw [if_neg h2] at h
          obtain ⟨evs, he, hm⟩ := ih _ _ _ _ _ h
          refine ⟨evs ++ Event.WaitForMultipleObjects
            [(slot (poll_child_status os s child st).sys.table child).hProcess] false timeout
            (os.WaitForMultipleObjects (poll_child_status os s child st).sys.world
              [(slot (poll_child_status os s child st).sys.table child).hProcess] false
              timeout).2 :: pevs, ?_, ?_⟩
          · rw [he]; simp [Sys.WaitForMultipleObjects, hp]
          · intro m
            have hc : (evs ++ Event.WaitForMultipleObjects
                [(slot (poll_child_status os s child st).sys.table child).hProcess] false timeout
                (os.WaitForMultipleObjects (poll_child_status os s child st).sys.world
                  [(slot (poll_child_status os s child st).sys.table child).hProcess] false
                  timeout).2 :: pevs).countP Event.isRetry
                = evs.countP Event.isRetry := by
              have : Event.isRetry (Event.WaitForMultipleObjects
                [(slot (poll_child_status os s child st).sys.table child).hProcess] false timeout
                (os.WaitForMultipleObjects (poll_child_status os s child st).sys.world
                  [(slot (poll_child_status os s child st).sys.table child).hProcess] false
                  timeout).2) = false := by
                simpa [Event.isRetry, Sys.WaitForMultipleObjects] using h2
              simp [List.countP_append, List.countP_cons, this, hpc]
            rw [hc, Nat.succ_add, waitLoop]
            dsimp only
            rw [if_neg h0, if_neg h1, if_neg h2, hm m]

/-- C8 as amended. `waitpid` is called for a pid that names a tracked child
with a handle other than `INVALID_HANDLE_VALUE`. After `n` passes its wait loop
is still running, in the state `s1`, and in the next iteration
`poll_child_status` reports `-1`. Then the loop ends in that iteration: with
`evs` the native calls logged in the `n` passes, `waitpid` returns `-1` when
none of them is a retried native wait, and `0` when at least one is. -/
theorem waitpid_poll_failure_after_retries (C : Consts) (os : Win32 W) (s s1 : Sys W)
    (pid : Int) (child : Nat) (stat_loc st1 : Option Int) (options : Int) (n fuel : Nat)
    (hany : pid ≠ -1) (hfind : FindChildSlot s.table pid = some child)
    (hh : (slot s.table child).hProcess ≠ INVALID_HANDLE_VALUE)
    (hrun : waitLoop C os child options (waitTimeout C options) n s stat_loc 0
      = ⟨s1, st1, .outOfFuel⟩)
    (hfail : (poll_child_status os s1 child st1).pid = -1)
    (hfuel : n < fuel) :
    ∃ evs, s1.trace = evs ++ s.trace ∧
      (waitpid C os fuel s pid stat_loc options).ret
        = .pid (if evs.countP Event.isRetry = 0 then -1 else 0) ∧
      (waitpid C os fuel s pid stat_loc options).sys
        = (poll_child_status os s1 child st1).sys := by
  obtain ⟨evs, he, hm⟩ := waitLoop_resume C os child options (waitTimeout C options) n
    s stat_loc 0 s1 st1 hrun
  obtain ⟨m, rfl⟩ : ∃ m, fuel = n + (m + 1) := ⟨fuel - n - 1, by omega⟩
  refine ⟨evs, he, ?_, ?_⟩
  · simp only [waitpid, hany, hfind, hh, if_false, hm (m + 1)]
    by_cases hr : evs.countP Event.isRetry = 0 <;> simp [waitLoop, hfail, hr]
  · simp only [waitpid, hany, hfind, hh, if_false, hm (m + 1)]
    simp [waitLoop, hfail]

/-- C8 as amended, at a concrete input: the child `5` is active at the first two
polls, the first native wait is signalled, the second comes back with
`WAIT_FAILED` (one retry), and at the third poll the exit-code query fails;
`waitpid` returns `0`. -/
theorem waitpid_poll_failure_after_retries_witness :
    (waitpid posix scripted 3
      ⟨[⟨100, 5⟩],
        { Script.empty with exitCodes := [some STILL_ACTIVE, some STILL_ACTIVE, none],
                            waits := [WAIT_OBJECT_0, WAIT_FAILED] },
        []⟩ 5 none 0).ret = .pid 0 := by
  obtain ⟨evs, h1, h2, _⟩ := waitpid_poll_failure_after_retries posix scripted
    ⟨[⟨100, 5⟩],
      { Script.empty with exitCodes := [some STILL_ACTIVE, some STILL_ACTIVE, none],
                          waits := [WAIT_OBJECT_0, WAIT_FAILED] }, []⟩
    ⟨[⟨100, 5⟩], { Script.empty with exitCodes := [none] },
      [Event.WaitForMultipleObjects [100] false INFINITE WAIT_FAILED,
       Event.GetExitCodeProcess 100 (some STILL_ACTIVE),
       Event.WaitForMultipleObjects [100] false INFINITE WAIT_OBJECT_0,
       Event.GetExitCodeProcess 100 (some STILL_ACTIVE)]⟩
    5 0 none none 0 2 3 (by decide) (by decide) (by decide) rfl (by decide) (by decide)
  simp only [List.append_nil] at h1
  subst h1
  exact h2

/-! ## C10: the result of the wait for any child -/

theorem toInt_toDWORD (i : Int) (hlo : -2147483648 ≤ i) (hhi : i < 2147483648) :
    toInt (toDWORD i) = i := by
  unfold toInt toDWORD
  split <;> omega

theorem toInt_range (d : Nat) : -2147483648 ≤ toInt d ∧ toInt d < 2147483648 := by
  unfold toInt
  split <;> omega

theorem subDWORD_zero (d : Nat) : subDWORD (toInt d) WAIT_OBJECT_0 = toInt d := by
  obtain ⟨h1, h2⟩ := toInt_range d
  simp only [subDWORD, WAIT_OBJECT_0, Nat.cast_zero, sub_zero]
  exact toInt_toDWORD _ h1 h2

/-- C10, what the code does instead. When the scan of `waitpid(-1, ...)` has
collected at least one handle and the native wait answers a value that is
negative as an `int` (`WAIT_FAILED` is one), the call reads `targets` at that
negative index. -/
theorem waitpid_any_negative_answer_reads_out_of_bounds (C : Consts) (os : Win32 W)
    (fuel : Nat) (s s1 : Sys W) (stat_loc st : Option Int) (options : Int)
    (targets : List Nat)
    (hscan : collectTargets os (List.range s.table.length) s stat_loc []
      = .targets s1 st targets)
    (hne : targets ≠ [])
    (hneg : toInt (os.WaitForMultipleObjects s1.world targets false (waitTimeout C options)).2
      < 0) :
    (waitpid C os fuel s (-1) stat_loc options).ret
      = .outOfBounds
          (toInt (os.WaitForMultipleObjects s1.world targets false (waitTimeout C options)).2) := by
  have hcount : ¬ ((targets.length : Int) = 0) := by
    cases targets with
    | nil => exact absurd rfl hne
    | cons x xs => simp; omega
  have hlen : (0 : Int) ≤ (targets.length : Int) := by omega
  simp only [waitpid, hscan, waitAny, hcount, if_true, if_false, Sys.WaitForMultipleObjects,
    subDWORD_zero]
  have h1 : ¬ toInt (os.WaitForMultipleObjects s1.world targets false
      (waitTimeout C options)).2 = WAIT_TIMEOUT := by
    simp only [WAIT_TIMEOUT]; omega
  have h2 : ¬ toInt (os.WaitForMultipleObjects s1.world targets false
      (waitTimeout C options)).2 = (targets.length : Int) := by omega
  have h3 : ¬ toInt (os.WaitForMultipleObjects s1.world targets false
      (waitTimeout C options)).2 > (targets.length : Int) := by omega
  have h4 : readTargets targets (toInt (os.WaitForMultipleObjects s1.world targets false
      (waitTimeout C options)).2) = none := by
    simp only [readTargets]
    rw [if_neg (by omega)]
  simp [h1, h2, h3, h4]

/-- C10 at the failing input: `waitpid(-1, NULL, 0)` with one child that is
still running, and the native wait answers `WAIT_FAILED`. As an `int` the
answer is `-1`, which is neither equal to nor greater than `count = 1`, so
line 127 reads `targets[-1]`. -/
theorem waitpid_any_negative_answer_reads_out_of_bounds_witness :
    toInt WAIT_FAILED = -1 ∧
    (waitpid posix scripted 1
      ⟨[⟨100, 5⟩],
        { Script.empty with exitCodes := [some STILL_ACTIVE], waits := [WAIT_FAILED] }, []⟩
      (-1) none 0).ret = .outOfBounds (-1) :=
  ⟨by decide,
    waitpid_any_negative_answer_reads_out_of_bounds posix scripted 1
      ⟨[⟨100, 5⟩],
        { Script.empty with exitCodes := [some STILL_ACTIVE], waits := [WAIT_FAILED] }, []⟩
      ⟨[⟨100, 5⟩], { Script.empty with waits := [WAIT_FAILED] },
        [Event.GetExitCodeProcess 100 (some STILL_ACTIVE)]⟩
      none none 0 [100] rfl (by decide) (by decide)⟩

/-! ## C6: `kill` with `SIGKILL` -/

theorem kill_SIGKILL_eq (C : Consts) (os : Win32 W) (s : Sys W) (pid : Int) (hpid : 0 < pid) :
    kill C os s pid C.SIGKILL = killChild os (Sys.GetCurrentProcessId os s).1 pid := by
  have h1 : ¬ pid < 0 := by omega
  have h2 : pid ≠ 0 := by omega
  simp [kill, h1, h2, C.sigkill_ne_zero, C.sigkill_ne_sigint]

theorem terminateIfActive_table (os : Win32 W) (s : Sys W) (hProc : Nat) :
    (terminateIfActive os s hProc).1.table = s.table := by
  unfold terminateIfActive
  simp only []
  repeat' split
  all_goals simp [Sys.GetExitCodeProcess, Sys.TerminateProcess]

theorem killChild_table (os : Win32 W) (s : Sys W) (pid : Int) :
    (killChild os s pid).1.table = s.table := by
  unfold killChild
  cases FindChildSlot s.table pid with
  | some child =>
    simp only []
    split_ifs
    · rfl
    · exact terminateIfActive_table os s _
  | none =>
    simp only []
    split_ifs
    · simp [Sys.OpenProcess]
    · simp [Sys.CloseHandle, terminateIfActive_table, Sys.OpenProcess]

theorem terminateIfActive_result (os : Win32 W) (s : Sys W) (hProc : Nat) :
    (terminateIfActive os s hProc).2 = 0 ∨ (terminateIfActive os s hProc).2 = -1 := by
  unfold terminateIfActive
  dsimp only
  split
  · exact Or.inr rfl
  · split_ifs <;> simp

theorem killChild_result (os : Win32 W) (s : Sys W) (pid : Int) :
    (killChild os s pid).2 = 0 ∨ (killChild os s pid).2 = -1 := by
  unfold killChild
  cases FindChildSlot s.table pid with
  | some child =>
    dsimp only
    split_ifs
    · exact Or.inr rfl
    · exact terminateIfActive_result os s _
  | none =>
    dsimp only
    split_ifs
    · exact Or.inr rfl
    · exact terminateIfActive_result os _ _

/-- C6. For `pid > 0`, `kill(pid, SIGKILL)` leaves the table as it is and
returns `0` or `-1`. The handle `h` it works on is the handle of the slot when
`pid` is tracked, and the answer of `OpenProcess` otherwise. It returns `0`
exactly when `h` is usable, the system answers the exit-code query on `h` with
`STILL_ACTIVE`, and the system then reports the termination of `h` as done.
The native calls it logs (newest first) are spelled out: for a tracked pid no
handle is closed; for a pid that is not tracked, a usable handle that was
opened is closed by the last native call. -/
theorem kill_SIGKILL (C : Consts) (os : Win32 W) (s : Sys W) (pid : Int) (hpid : 0 < pid) :
    (kill C os s pid C.SIGKILL).1.table = s.table ∧
    ((kill C os s pid C.SIGKILL).2 = 0 ∨ (kill C os s pid C.SIGKILL).2 = -1) ∧
    (∀ child, FindChildSlot s.table pid = some child →
      ∀ h, (slot s.table child).hProcess = h →
      ∀ query, os.GetExitCodeProcess (os.GetCurrentProcessId s.world).1 h = query →
      ∀ ended, os.TerminateProcess query.1 h 0 = ended →
        ((kill C os s pid C.SIGKILL).2 = 0 ↔
          usable h ∧ query.2 = some STILL_ACTIVE ∧ ended.2 = true) ∧
        (kill C os s pid C.SIGKILL).1.trace
          = (if usable h then
              (if query.2 = some STILL_ACTIVE then [Event.TerminateProcess h 0 ended.2] else [])
                ++ [Event.GetExitCodeProcess h query.2]
            else [])
            ++ Event.GetCurrentProcessId (os.GetCurrentProcessId s.world).2 :: s.trace) ∧
    (FindChildSlot s.table pid = none →
      ∀ opened, os.OpenProcess (os.GetCurrentProcessId s.world).1
          (PROCESS_TERMINATE ||| PROCESS_QUERY_INFORMATION) false (toDWORD pid) = opened →
      ∀ query, os.GetExitCodeProcess opened.1 opened.2 = query →
      ∀ ended, os.TerminateProcess query.1 opened.2 0 = ended →
        ((kill C os s pid C.SIGKILL).2 = 0 ↔
          usable opened.2 ∧ query.2 = some STILL_ACTIVE ∧ ended.2 = true) ∧
        (kill C os s pid C.SIGKILL).1.trace
          = (if usable opened.2 then
              Event.CloseHandle opened.2 ::
                ((if query.2 = some STILL_ACTIVE then
                    [Event.TerminateProcess opened.2 0 ended.2] else [])
                  ++ [Event.GetExitCodeProcess opened.2 query.2])
            else [])
            ++ Event.OpenProcess (PROCESS_TERMINATE ||| PROCESS_QUERY_INFORMATION) false
                (toDWORD pid) opened.2
              :: Event.GetCurrentProcessId (os.GetCurrentProcessId s.world).2 :: s.trace) := by
  rw [kill_SIGKILL_eq C os s pid hpid]
  refine ⟨?_, ?_, ?_, ?_⟩
  · have := killChild_table os (Sys.GetCurrentProcessId os s).1 pid
    simpa [Sys.GetCurrentProcessId] using this
  · exact killChild_result os _ pid
  · intro child hfind h hh query hq ended he
    subst hh hq he
    by_cases hu : usable (slot s.table child).hProcess
    · have hu1 := hu.1
      have hu2 := hu.2
      cases hq : (os.GetExitCodeProcess (os.GetCurrentProcessId s.world).1
          (slot s.table child).hProcess).2 with
      | none =>
        simp [killChild, terminateIfActive, Sys.GetCurrentProcessId, Sys.GetExitCodeProcess,
          hfind, hu, hu1, hu2, hq]
      | some E =>
        by_cases hE : E = STILL_ACTIVE
        · subst hE
          cases ht : (os.TerminateProcess (os.GetExitCodeProcess (os.GetCurrentProcessId s.world).1
              (slot s.table child).hProcess).1 (slot s.table child).hProcess 0).2 <;>
          simp [killChild, terminateIfActive, Sys.GetCurrentProcessId, Sys.GetExitCodeProcess,
            Sys.TerminateProcess, hfind, hu, hu1, hu2, hq, ht]
        · simp [killChild, terminateIfActive, Sys.GetCurrentProcessId, Sys.GetExitCodeProcess,
            hfind, hu, hu1, hu2, hq, hE]
    · have hu3 : (slot s.table child).hProcess = NULL ∨
          (slot s.table child).hProcess = INVALID_HANDLE_VALUE := by
        unfold usable at hu; tauto
      simp [killChild, Sys.GetCurrentProcessId, hfind, hu, hu3]
  · intro hfind opened ho query hq ended he
    subst hq he
    by_cases hu : usable opened.2
    · have hu1 := hu.1
      have hu2 := hu.2
      cases hq : (os.GetExitCodeProcess opened.1 opened.2).2 with
      | none =>
        simp [killChild, terminateIfActive, Sys.GetCurrentProcessId, Sys.OpenProcess,
          Sys.GetExitCodeProcess, Sys.CloseHandle, hfind, ho, hu, hu1, hu2, hq]
      | some E =>
        by_cases hE : E = STILL_ACTIVE
        · subst hE
          cases ht : (os.TerminateProcess (os.GetExitCodeProcess opened.1 opened.2).1
              opened.2 0).2 <;>
          simp [killChild, terminateIfActive, Sys.GetCurrentProcessId, Sys.OpenProcess,
            Sys.GetExitCodeProcess, Sys.TerminateProcess, Sys.CloseHandle, hfind, ho, hu, hu1,
            hu2, hq, ht]
        · simp [killChild, terminateIfActive, Sys.GetCurrentProcessId, Sys.OpenProcess,
            Sys.GetExitCodeProcess, Sys.CloseHandle, hfind, ho, hu, hu1, hu2, hq, hE]
    · have hu3 : opened.2 = NULL ∨ opened.2 = INVALID_HANDLE_VALUE := by
        unfold usable at hu; tauto
      simp [killChild, Sys.GetCurrentProcessId, Sys.OpenProcess, hfind, ho, hu, hu3]

/-- C6 at a concrete input: the tracked child `5` is still active and the system
ends it; the result is `0`. -/
theorem kill_SIGKILL_witness :
    (0 : Int) < 5 ∧
    (kill posix scripted
      ⟨[⟨100, 5⟩], { Script.empty with exitCodes := [some STILL_ACTIVE], terminates := [true] },
        []⟩ 5 posix.SIGKILL).2 = 0 :=
  ⟨by decide,
    ((kill_SIGKILL posix scripted
      ⟨[⟨100, 5⟩], { Script.empty with exitCodes := [some STILL_ACTIVE], terminates := [true] },
        []⟩ 5 (by decide)).2.2.1 0 (by decide) 100 rfl _ rfl _ rfl).1.mpr
      ⟨⟨by decide, by decide⟩, by decide, by decide⟩⟩

/-! ## How `CreateChild` changes the state -/

theorem findFirst_split (p : ChildRecord → Bool) (t : List ChildRecord) (i : Nat)
    (h : findFirst p t = some i) :
    ∃ pre c post, t = pre ++ c :: post ∧ i = pre.length ∧ p c = true ∧
      ∀ x ∈ pre, p x = false := by
  obtain ⟨pre, post, ht, hlen, hp, hall⟩ := findFirst_some p t i h
  exact ⟨pre, slot t i, post, ht, hlen.symm, hp, hall⟩

theorem stdHandle_table (os : Win32 W) (s : Sys W) (given which : Nat) :
    (stdHandle os s given which).1.table = s.table := by
  unfold stdHandle
  split <;> simp [Sys.GetStdHandle]

/-- What `launch` does to the slot it was given: either it returns `NULL` and
only the pid of the slot is reset, or native creation has succeeded, the thread
handle has been closed and the slot holds the new handle and pid. -/
theorem launch_spec (os : Win32 W) (s : Sys W) (child : Nat) (a : CreateChildArgs) :
    ((launch os s child a).2 = none ∧
      (launch os s child a).1.table
        = s.table.set child { hProcess := (slot s.table child).hProcess, pid := 0 } ∧
      (lstrlenW a.cmd > MAXCMDLEN ∨ ∃ args rest,
        (launch os s child a).1.trace = Event.CreateProcessW args none :: rest)) ∨
    (lstrlenW a.cmd ≤ MAXCMDLEN ∧ ∃ w args info rest,
      (os.CreateProcessW w args).2 = some info ∧
      (launch os s child a).2 = some child ∧
      (launch os s child a).1.table
        = s.table.set child { hProcess := info.hProcess, pid := toInt info.dwProcessId } ∧
      (launch os s child a).1.trace
        = Event.CloseHandle info.hThread :: Event.CreateProcessW args (some info) :: rest) := by
  unfold launch
  simp only []
  split
  · left
    refine ⟨rfl, ?_, Or.inl (by assumption)⟩
    simp [releaseSlot, stdHandle_table]
  · rename_i hlen
    split
    · rename_i hnone
      left
      refine ⟨rfl, ?_, Or.inr ?_⟩
      · simp [releaseSlot, stdHandle_table, Sys.CreateProcessW]
      · simp only [Sys.CreateProcessW] at hnone
        simp only [releaseSlot, Sys.CreateProcessW, hnone]
        exact ⟨_, _, rfl⟩
    · rename_i info hsome
      right
      refine ⟨by omega, _, _, info,
        (stdHandle os (stdHandle os (stdHandle os s a.hInput STD_INPUT_HANDLE).1 a.hOutput
          STD_OUTPUT_HANDLE).1 a.hError STD_ERROR_HANDLE).1.trace, hsome, rfl, ?_, ?_⟩
      · simp [stdHandle_table, Sys.CreateProcessW, Sys.CloseHandle]
      · simp only [Sys.CreateProcessW] at hsome
        simp only [Sys.CloseHandle, Sys.CreateProcessW, hsome]

/-- What `CreateChild` does to the state: nothing at all, or the first free
slot is left free with a `NULL` handle and `NULL` is returned, or native
creation has succeeded and the first free slot holds the new handle and pid. -/
theorem CreateChild_spec (os : Win32 W) (s : Sys W) (a : CreateChildArgs) :
    CreateChild os s a = (s, none) ∨
    ∃ i, findFirst (fun c => c.pid == 0) s.table = some i ∧
      (((CreateChild os s a).2 = none ∧
        (CreateChild os s a).1.table = s.table.set i { hProcess := NULL, pid := 0 }) ∨
       (lstrlenW a.cmd ≤ MAXCMDLEN ∧ ∃ w args info rest,
        (os.CreateProcessW w args).2 = some info ∧
        (CreateChild os s a).2 = some i ∧
        (CreateChild os s a).1.table
          = s.table.set i { hProcess := info.hProcess, pid := toInt info.dwProcessId } ∧
        (CreateChild os s a).1.trace
          = Event.CloseHandle info.hThread :: Event.CreateProcessW args (some info) :: rest)) := by
  unfold CreateChild
  split
  · exact Or.inl rfl
  · cases hfind : findFirst (fun c => c.pid == 0) s.table with
    | none => left; simp [FindFreeChildSlot, hfind]
    | some i =>
      right
      refine ⟨i, rfl, ?_⟩
      obtain ⟨pre, c, post, ht, hi, -, -⟩ := findFirst_split _ _ _ hfind
      have hslot : slot (s.table.set i { hProcess := NULL, pid := -1 }) i
          = { hProcess := NULL, pid := -1 } := by
        rw [ht, hi, set_append_cons, slot_append_cons]
      simp only [FindFreeChildSlot, hfind]
      rcases launch_spec os { s with table := s.table.set i { hProcess := NULL, pid := -1 } } i a
        with ⟨hnone, htab, -⟩ | ⟨hlen, w, args, info, rest, hinfo, hres, htab, htr⟩
      · left
        refine ⟨hnone, ?_⟩
        rw [htab]
        simp only [hslot, List.set_set]
      · right
        refine ⟨hlen, w, args, info, rest, hinfo, hres, ?_, htr⟩
        rw [htab]
        simp only [List.set_set]

/-! ## C7: a failed `CreateChild` leaves no trace in the table -/

/-- C7. In a table with no locked slot and whose free slots have `NULL`
handles, a `CreateChild` call that returns `NULL` leaves the table as it was;
in particular no slot is left with the pid `-1`. -/
theorem CreateChild_failure_keeps_table (os : Win32 W) (s : Sys W) (a : CreateChildArgs)
    (hlock : ∀ c ∈ s.table, c.pid ≠ -1)
    (hfree : ∀ c ∈ s.table, c.pid = 0 → c.hProcess = NULL)
    (hnull : (CreateChild os s a).2 = none) :
    (CreateChild os s a).1.table = s.table ∧
    ∀ c ∈ (CreateChild os s a).1.table, c.pid ≠ -1 := by
  have htab : (CreateChild os s a).1.table = s.table := by
    rcases CreateChild_spec os s a with h | ⟨i, hfind, ⟨-, htab⟩ | ⟨-, _, _, _, _, -, hres, -, -⟩⟩
    · rw [h]
    · obtain ⟨pre, c, post, ht, hi, hc, -⟩ := findFirst_split _ _ _ hfind
      have hpid : c.pid = 0 := by simpa using hc
      have hmem : c ∈ s.table := by rw [ht]; simp
      have hh : c.hProcess = NULL := hfree c hmem hpid
      have hceq : c = { hProcess := NULL, pid := 0 } := by
        cases c
        simp_all
      rw [htab, ht, hi, set_append_cons, hceq]
    · rw [hres] at hnull
      cases hnull
  exact ⟨htab, by rw [htab]; exact hlock⟩

/-- C7 at a concrete input: native creation fails (the script has no process
to offer), the slot that was locked is free again. -/
theorem CreateChild_failure_keeps_table_witness :
    (CreateChild scripted ⟨[⟨100, 5⟩, ⟨0, 0⟩], Script.empty, []⟩ plainCommand).2 = none ∧
    (CreateChild scripted ⟨[⟨100, 5⟩, ⟨0, 0⟩], Script.empty, []⟩ plainCommand).1.table
      = [⟨100, 5⟩, ⟨0, 0⟩] :=
  ⟨by decide,
    (CreateChild_failure_keeps_table scripted ⟨[⟨100, 5⟩, ⟨0, 0⟩], Script.empty, []⟩
      plainCommand (by decide) (by decide) (by decide)).1⟩

/-! ## C9: a handle exactly in the live slots -/

theorem HandleIffLive_set (t : List ChildRecord) (i : Nat) (c : ChildRecord)
    (ht : HandleIffLive t) (hc : c.hProcess ≠ NULL ↔ 0 < c.pid) :
    HandleIffLive (t.set i c) := by
  intro x hx
  rcases List.mem_or_eq_of_mem_set hx with h | rfl
  · exact ht x h
  · exact hc

theorem HandleIffLive_free (t : List ChildRecord) (i : Nat) (ht : HandleIffLive t) :
    HandleIffLive (t.set i { hProcess := NULL, pid := 0 }) :=
  HandleIffLive_set t i _ ht (by simp)

theorem poll_child_status_table (os : Win32 W) (s : Sys W) (child : Nat)
    (stat_loc : Option Int) :
    (poll_child_status os s child stat_loc).sys.table = s.table ∨
    (poll_child_status os s child stat_loc).sys.table
      = s.table.set child { hProcess := NULL, pid := 0 } := by
  unfold poll_child_status
  simp only []
  split
  · right; simp [CloseChildHandle, Sys.CloseHandle, Sys.GetExitCodeProcess]
  · split
    · split
      · right
        simp [CloseChildHandle, Sys.CloseHandle, Sys.GetExitCodeProcess, Sys.WaitForSingleObject]
      · right
        simp [CloseChildHandle, Sys.CloseHandle, Sys.GetExitCodeProcess, Sys.WaitForSingleObject]
    · left; simp [Sys.GetExitCodeProcess]

theorem poll_child_status_HandleIffLive (os : Win32 W) (s : Sys W) (child : Nat)
    (stat_loc : Option Int) (h : HandleIffLive s.table) :
    HandleIffLive (poll_child_status os s child stat_loc).sys.table := by
  rcases poll_child_status_table os s child stat_loc with e | e <;> rw [e]
  · exact h
  · exact HandleIffLive_free _ _ h

theorem collectTargets_HandleIffLive (os : Win32 W) (is : List Nat) (s : Sys W)
    (stat_loc : Option Int) (targets : List Nat) (h : HandleIffLive s.table) :
    HandleIffLive (collectTargets os is s stat_loc targets).sys.table := by
  induction is generalizing s stat_loc targets with
  | nil => simpa [collectTargets, Scan.sys] using h
  | cons i is ih =>
    unfold collectTargets
    dsimp only
    split
    · exact ih s stat_loc targets h
    · split
      · exact poll_child_status_HandleIffLive os s i stat_loc h
      · exact ih _ _ _ (poll_child_status_HandleIffLive os s i stat_loc h)

theorem waitAny_HandleIffLive (os : Win32 W) (s : Sys W) (stat_loc : Option Int)
    (targets : List Nat) (timeout : Nat) (h : HandleIffLive s.table) :
    HandleIffLive (waitAny os s stat_loc targets timeout).sys.table := by
  unfold waitAny
  dsimp only
  repeat' split
  all_goals first
    | exact h
    | exact poll_child_status_HandleIffLive os _ _ _ h

theorem waitLoop_HandleIffLive (C : Consts) (os : Win32 W) (child : Nat) (options : Int)
    (timeout : Nat) (fuel : Nat) (s : Sys W) (stat_loc : Option Int) (retried : Nat)
    (h : HandleIffLive s.table) :
    HandleIffLive (waitLoop C os child options timeout fuel s stat_loc retried).sys.table := by
  induction fuel generalizing s stat_loc retried with
  | zero => simpa [waitLoop] using h
  | succ n ih =>
    have hp := poll_child_status_HandleIffLive os s child stat_loc h
    unfold waitLoop
    dsimp only
    repeat' split
    all_goals first
      | exact hp
      | exact ih _ _ _ hp

theorem waitpid_HandleIffLive (C : Consts) (os : Win32 W) (fuel : Nat) (s : Sys W) (pid : Int)
    (stat_loc : Option Int) (options : Int) (h : HandleIffLive s.table) :
    HandleIffLive (waitpid C os fuel s pid stat_loc options).sys.table := by
  unfold waitpid
  dsimp only
  have hc := collectTargets_HandleIffLive os (List.range s.table.length) s stat_loc [] h
  split
  · split
    · rename_i r heq
      rw [heq] at hc
      exact hc
    · rename_i s1 st targets heq
      rw [heq] at hc
      exact waitAny_HandleIffLive os s1 st targets _ hc
  · split
    · exact h
    · split
      · exact h
      · exact waitLoop_HandleIffLive C os _ _ _ _ _ _ _ h

/-- No signal changes the table. -/
theorem kill_table (C : Consts) (os : Win32 W) (s : Sys W) (pid : Int) (sig : Int) :
    (kill C os s pid sig).1.table = s.table := by
  unfold kill
  simp only []
  repeat' split
  all_goals simp [killChild_table, Sys.GetCurrentProcessId, Sys.raise, Sys.OpenProcess,
    Sys.CloseHandle, Sys.GenerateConsoleCtrlEvent]

theorem FindFreeChildSlot_HandleIffLive (t : List ChildRecord) (h : HandleIffLive t) :
    HandleIffLive (FindFreeChildSlot t).1 := by
  unfold FindFreeChildSlot
  split
  · exact HandleIffLive_set t _ _ h (by simp)
  · exact h

theorem CreateChild_HandleIffLive (os : Win32 W)
    (hcreate : ∀ w a info, (os.CreateProcessW w a).2 = some info →
      info.hProcess ≠ NULL ∧ 0 < toInt info.dwProcessId)
    (s : Sys W) (a : CreateChildArgs) (h : HandleIffLive s.table) :
    HandleIffLive (CreateChild os s a).1.table := by
  rcases CreateChild_spec os s a with e | ⟨i, -, ⟨-, htab⟩ | ⟨-, w, args, info, _, hinfo, -, htab, -⟩⟩
  · rw [e]; exact h
  · rw [htab]; exact HandleIffLive_free _ _ h
  · rw [htab]
    obtain ⟨h1, h2⟩ := hcreate w args info hinfo
    exact HandleIffLive_set _ _ _ h (by simp [h1, h2])

/-- C9. Provided native process creation, when it succeeds, yields a non-NULL
process handle and a positive process id: "the handle of a slot is non-NULL
exactly when its pid is positive" holds of the initial table and is kept by
`FindFreeChildSlot`, `CreateChild`, `poll_child_status`, `CloseChildHandle`,
`waitpid` and `kill`. -/
theorem HandleIffLive_invariant (C : Consts) (os : Win32 W)
    (hcreate : ∀ w a info, (os.CreateProcessW w a).2 = some info →
      info.hProcess ≠ NULL ∧ 0 < toInt info.dwProcessId) :
    HandleIffLive initialTable ∧
    (∀ t, HandleIffLive t → HandleIffLive (FindFreeChildSlot t).1) ∧
    (∀ (s : Sys W) a, HandleIffLive s.table → HandleIffLive (CreateChild os s a).1.table) ∧
    (∀ (s : Sys W) child stat_loc, HandleIffLive s.table →
      HandleIffLive (poll_child_status os s child stat_loc).sys.table) ∧
    (∀ (s : Sys W) child, HandleIffLive s.table →
      HandleIffLive (CloseChildHandle os s child).table) ∧
    (∀ fuel (s : Sys W) pid stat_loc options, HandleIffLive s.table →
      HandleIffLive (waitpid C os fuel s pid stat_loc options).sys.table) ∧
    (∀ (s : Sys W) pid sig, HandleIffLive s.table →
      HandleIffLive (kill C os s pid sig).1.table) := by
  refine ⟨?_, FindFreeChildSlot_HandleIffLive, CreateChild_HandleIffLive os hcreate,
    fun s child stat_loc h => poll_child_status_HandleIffLive os s child stat_loc h, ?_,
    fun fuel s pid stat_loc options h => waitpid_HandleIffLive C os fuel s pid stat_loc options h,
    ?_⟩
  · intro c hc
    simp [initialTable] at hc
    simp [hc.2]
  · intro s child h
    simpa [CloseChildHandle, Sys.CloseHandle] using HandleIffLive_free s.table child h
  · intro s pid sig h
    rw [kill_table]
    exact h

theorem spawning_creates_live (w : Nat) (a : CreateProcessArgs) (info : PROCESS_INFORMATION)
    (h : (spawning.CreateProcessW w a).2 = some info) :
    info.hProcess ≠ NULL ∧ 0 < toInt info.dwProcessId := by
  simp only [spawning, Option.some.injEq] at h
  subst h
  refine ⟨by simp [NULL], ?_⟩
  unfold toInt
  dsimp only
  split <;> omega

/-- C9 at a concrete input: a system whose process creation always succeeds,
and the table after one child has been created from the initial table. -/
theorem HandleIffLive_invariant_witness :
    HandleIffLive (CreateChild spawning ⟨initialTable, 0, []⟩ plainCommand).1.table :=
  (HandleIffLive_invariant posix spawning spawning_creates_live).2.2.1
    ⟨initialTable, 0, []⟩ plainCommand
    (HandleIffLive_invariant posix spawning spawning_creates_live).1

/-! ## C3: filling the table -/

theorem findFirst_free_after_live (live : List ChildRecord) (n : Nat)
    (hlive : ∀ c ∈ live, c.pid ≠ 0) :
    findFirst (fun c => c.pid == 0)
      (live ++ List.replicate (n + 1) { hProcess := NULL, pid := 0 }) = some live.length := by
  rw [List.replicate_succ]
  apply findFirst_append
  · intro x hx
    simp [hlive x hx]
  · simp

theorem CreateChild_full (os : Win32 W) (s : Sys W) (a : CreateChildArgs)
    (hfull : findFirst (fun c => c.pid == 0) s.table = none) :
    CreateChild os s a = (s, none) := by
  unfold CreateChild
  split
  · rfl
  · simp [FindFreeChildSlot, hfull]

/-- The log only grows: the old log is the tail of the new one. -/
theorem stdHandle_trace (os : Win32 W) (s : Sys W) (given which : Nat) :
    s.trace <:+ (stdHandle os s given which).1.trace := by
  unfold stdHandle
  split
  · exact List.suffix_refl _
  · exact List.suffix_cons _ _

theorem launch_trace (os : Win32 W) (s : Sys W) (child : Nat) (a : CreateChildArgs) :
    s.trace <:+ (launch os s child a).1.trace := by
  have h123 := ((stdHandle_trace os s a.hInput STD_INPUT_HANDLE).trans
    (stdHandle_trace os (stdHandle os s a.hInput STD_INPUT_HANDLE).1 a.hOutput
      STD_OUTPUT_HANDLE)).trans
    (stdHandle_trace os
      (stdHandle os (stdHandle os s a.hInput STD_INPUT_HANDLE).1 a.hOutput STD_OUTPUT_HANDLE).1
      a.hError STD_ERROR_HANDLE)
  unfold launch
  dsimp only
  split
  · exact h123
  · split
    · exact h123.trans (List.suffix_cons _ _)
    · exact h123.trans ((List.suffix_cons _ _).trans (List.suffix_cons _ _))

theorem CreateChild_trace (os : Win32 W) (s : Sys W) (a : CreateChildArgs) :
    s.trace <:+ (CreateChild os s a).1.trace := by
  unfold CreateChild
  split
  · exact List.suffix_refl _
  · split
    · exact List.suffix_refl _
    · rename_i locked child _
      exact launch_trace os { s with table := locked } child a

theorem createAll_trace (os : Win32 W) (reqs : List CreateChildArgs) :
    ∀ s : Sys W, s.trace <:+ (createAll os s reqs).1.trace := by
  induction reqs with
  | nil => intro s; exact List.suffix_refl _
  | cons a rest ih =>
    intro s
    exact (CreateChild_trace os s a).trans (ih (CreateChild os s a).1)

theorem createAll_append (os : Win32 W) (reqs : List CreateChildArgs) (a : CreateChildArgs) :
    ∀ s : Sys W, (createAll os s (reqs ++ [a])).1 = (CreateChild os (createAll os s reqs).1 a).1 := by
  induction reqs with
  | nil => intro s; rfl
  | cons b rest ih =>
    intro s
    simpa [createAll] using ih (CreateChild os s b).1

/-- One call on a table whose live slots come first, when the native creation
that the call logs has succeeded with a positive pid: the first free slot is
taken and filled. -/
theorem CreateChild_step (os : Win32 W) (s : Sys W) (a : CreateChildArgs)
    (live : List ChildRecord) (n : Nat)
    (hs : s.table = live ++ List.replicate (n + 1) { hProcess := NULL, pid := 0 })
    (hlive : ∀ c ∈ live, c.pid ≠ 0)
    (hcmd : a.cmd.isSome = true) (hlen : lstrlenW a.cmd ≤ MAXCMDLEN)
    (hok : ∀ e ∈ (CreateChild os s a).1.trace, e.creationOk = true) :
    ∃ info args rest,
      (CreateChild os s a).2 = some live.length ∧
      (CreateChild os s a).1.table
        = live ++ { hProcess := info.hProcess, pid := toInt info.dwProcessId }
            :: List.replicate n { hProcess := NULL, pid := 0 } ∧
      0 < toInt info.dwProcessId ∧
      (CreateChild os s a).1.trace
        = Event.CloseHandle info.hThread :: Event.CreateProcessW args (some info) :: rest := by
  have hfind := findFirst_free_after_live live n hlive
  rw [← hs] at hfind
  have hnone : ¬ (a.cmd.isNone = true ∧ a.prog.isNone = true) := by
    intro h
    cases hc : a.cmd <;> simp_all
  have e : CreateChild os s a
      = launch os { s with table := s.table.set live.length { hProcess := NULL, pid := -1 } }
          live.length a := by
    unfold CreateChild
    rw [if_neg hnone]
    simp only [FindFreeChildSlot, hfind]
  rw [e] at hok ⊢
  rcases launch_spec os
      { s with table := s.table.set live.length { hProcess := NULL, pid := -1 } } live.length a
    with ⟨-, -, hbad | ⟨args, rest, hfail⟩⟩ | ⟨-, w, args, info, rest, -, hres, htab, htr⟩
  · omega
  · have := hok (Event.CreateProcessW args none) (by rw [hfail]; simp)
    simp [Event.creationOk] at this
  · have hpos : 0 < toInt info.dwProcessId := by
      have := hok (Event.CreateProcessW args (some info)) (by rw [htr]; simp)
      simpa [Event.creationOk] using this
    refine ⟨info, args, rest, hres, ?_, hpos, htr⟩
    rw [htab]
    simp only [List.set_set]
    rw [hs, List.replicate_succ, set_append_cons]

/-- A run of calls on a table whose live slots come first, with room for all
of them: the free slots are filled from the front, one per call. -/
theorem createAll_shape (os : Win32 W) (reqs : List CreateChildArgs) :
    ∀ (s : Sys W) (live : List ChildRecord) (n : Nat),
      s.table = live ++ List.replicate n { hProcess := NULL, pid := 0 } →
      (∀ c ∈ live, c.pid ≠ 0) →
      (∀ r ∈ reqs, r.cmd.isSome = true ∧ lstrlenW r.cmd ≤ MAXCMDLEN) →
      reqs.length ≤ n →
      (∀ e ∈ (createAll os s reqs).1.trace, e.creationOk = true) →
      ∃ live2, (createAll os s reqs).1.table
          = live2 ++ List.replicate (n - reqs.length) { hProcess := NULL, pid := 0 } ∧
        live2.length = live.length + reqs.length ∧
        (∀ c ∈ live2, c.pid ≠ 0) ∧
        (createAll os s reqs).2 = (List.range' live.length reqs.length).map some := by
  induction reqs with
  | nil =>
    intro s live n hs hlive _ _ _
    exact ⟨live, by simpa [createAll] using hs, by simp, hlive, by simp [createAll]⟩
  | cons a rest ih =>
    intro s live n hs hlive hreqs hn hok
    obtain ⟨m, rfl⟩ : ∃ m, n = m + 1 := ⟨n - 1, by simp at hn; omega⟩
    obtain ⟨hcmd, hlen⟩ := hreqs a (by simp)
    have hok1 : ∀ e ∈ (CreateChild os s a).1.trace, e.creationOk = true :=
      fun e he => hok e ((createAll_trace os rest (CreateChild os s a).1).subset he)
    obtain ⟨info, args, tr, hres, htab, hpos, -⟩ :=
      CreateChild_step os s a live m hs hlive hcmd hlen hok1
    have htab2 : (CreateChild os s a).1.table
        = (live ++ [{ hProcess := info.hProcess, pid := toInt info.dwProcessId }])
            ++ List.replicate m { hProcess := NULL, pid := 0 } := by
      rw [htab]; simp
    have hlive2 : ∀ c ∈ live ++ [ChildRecord.mk info.hProcess (toInt info.dwProcessId)],
        c.pid ≠ 0 := by
      intro c hc
      rcases List.mem_append.mp hc with h1 | h1
      · exact hlive c h1
      · simp at h1
        subst h1
        simp only
        omega
    obtain ⟨live2, h1, h2, h3, h4⟩ := ih (CreateChild os s a).1 _ m htab2 hlive2
      (fun r hr => hreqs r (by simp [hr])) (by simp at hn; omega)
      (by simpa [createAll] using hok)
    refine ⟨live2, ?_, ?_, h3, ?_⟩
    · simpa [createAll] using h1
    · simp at h2 ⊢; omega
    · simp only [createAll, hres, h4]
      simp [List.range']

/-- C3. Start from the initial table of `MAXCHILDNUM = 256` free slots with an
empty log, and let `k ≤ 256` calls of `CreateChild` be made and then one more,
nothing else in between, each with a command of at most 32767 characters, such
that every native process creation of the run has succeeded with a positive
process id. The first `k` calls returned the slots `0, 1, ..., k - 1`. If
`k < 256`, the next call returns slot `k`, which was free before the call, was
not returned by an earlier call, and now holds the handle and pid that native
creation has just delivered. If `k = 256`, the next call returns `NULL` and
leaves the whole state (table, world, log of native calls) as it was: native
process creation is not invoked. -/
theorem CreateChild_fills_table_then_fails (os : Win32 W) (w : W)
    (reqs : List CreateChildArgs) (a : CreateChildArgs)
    (hreqs : ∀ r ∈ a :: reqs, r.cmd.isSome = true ∧ lstrlenW r.cmd ≤ MAXCMDLEN)
    (hlen : reqs.length ≤ MAXCHILDNUM)
    (hrun : ∀ e ∈ (createAll os ⟨initialTable, w, []⟩ (reqs ++ [a])).1.trace,
      e.creationOk = true) :
    (createAll os ⟨initialTable, w, []⟩ reqs).2 = (List.range reqs.length).map some ∧
    (reqs.length < MAXCHILDNUM →
      ∃ info args rest,
        (CreateChild os (createAll os ⟨initialTable, w, []⟩ reqs).1 a).2 = some reqs.length ∧
        slot (createAll os ⟨initialTable, w, []⟩ reqs).1.table reqs.length
          = { hProcess := NULL, pid := 0 } ∧
        some reqs.length ∉ (createAll os ⟨initialTable, w, []⟩ reqs).2 ∧
        (CreateChild os (createAll os ⟨initialTable, w, []⟩ reqs).1 a).1.trace
          = Event.CloseHandle info.hThread :: Event.CreateProcessW args (some info) :: rest ∧
        0 < toInt info.dwProcessId ∧
        slot (CreateChild os (createAll os ⟨initialTable, w, []⟩ reqs).1 a).1.table reqs.length
          = { hProcess := info.hProcess, pid := toInt info.dwProcessId }) ∧
    (reqs.length = MAXCHILDNUM →
      CreateChild os (createAll os ⟨initialTable, w, []⟩ reqs).1 a
        = ((createAll os ⟨initialTable, w, []⟩ reqs).1, none)) := by
  rw [createAll_append] at hrun
  have hprefix : ∀ e ∈ (createAll os ⟨initialTable, w, []⟩ reqs).1.trace,
      e.creationOk = true :=
    fun e he => hrun e
      ((CreateChild_trace os (createAll os ⟨initialTable, w, []⟩ reqs).1 a).subset he)
  obtain ⟨live, htab, hlivelen, hlive, hres⟩ :=
    createAll_shape os reqs ⟨initialTable, w, []⟩ [] MAXCHILDNUM (by simp [initialTable])
      (by simp) (fun r hr => hreqs r (by simp [hr])) hlen hprefix
  simp only [List.length_nil, Nat.zero_add] at hlivelen hres
  have hres2 : (createAll os ⟨initialTable, w, []⟩ reqs).2
      = (List.range reqs.length).map some := by
    rw [hres, List.range_eq_range']
  refine ⟨hres2, ?_, ?_⟩
  · intro hlt
    obtain ⟨m, hm⟩ : ∃ m, MAXCHILDNUM - reqs.length = m + 1 :=
      ⟨MAXCHILDNUM - reqs.length - 1, by omega⟩
    rw [hm] at htab
    obtain ⟨hcmd, hlen2⟩ := hreqs a (by simp)
    obtain ⟨info, args, rest, h1, h2, h3, h4⟩ :=
      CreateChild_step os _ a live m htab hlive hcmd hlen2 hrun
    refine ⟨info, args, rest, ?_, ?_, ?_, h4, h3, ?_⟩
    · rw [h1, hlivelen]
    · rw [htab, List.replicate_succ, ← hlivelen, slot_append_cons]
    · rw [hres2]
      simp
    · rw [h2, ← hlivelen, slot_append_cons]
  · intro heq
    apply CreateChild_full
    rw [htab, heq]
    simp only [Nat.sub_self, List.replicate_zero, List.append_nil]
    apply findFirst_eq_none
    intro x hx
    simp [hlive x hx]

/-- C3 at a concrete input: two calls have been made from the initial table,
and a third one follows. -/
theorem CreateChild_fills_table_then_fails_witness :
    (createAll spawning ⟨initialTable, 0, []⟩ [plainCommand, plainCommand]).2
      = [some 0, some 1] :=
  (CreateChild_fills_table_then_fails spawning 0 [plainCommand, plainCommand] plainCommand
    (by decide) (by decide) (by decide)).1

/-! ## Further properties of the wait dispatcher, the reaper and the signal mapper -/

theorem slot_mem_or_free (t : List ChildRecord) (i : Nat) :
    slot t i ∈ t ∨ slot t i = { hProcess := NULL, pid := 0 } := by
  unfold slot
  rw [List.getD_eq_getElem?_getD]
  cases h : t[i]? with
  | none => right; rfl
  | some c => left; simpa using List.getElem?_mem h

theorem collectTargets_no_live (os : Win32 W) (is : List Nat) (s : Sys W)
    (stat_loc : Option Int) (targets : List Nat) (hnone : ∀ c ∈ s.table, c.pid ≤ 0) :
    collectTargets os is s stat_loc targets = .targets s stat_loc targets := by
  induction is with
  | nil => rfl
  | cons i is ih =>
    have hle : (slot s.table i).pid ≤ 0 := by
      rcases slot_mem_or_free s.table i with h | h
      · exact hnone _ h
      · rw [h]
    have hskip : (slot s.table i).pid = 0 ∨ (slot s.table i).pid < 0 := by omega
    simp only [collectTargets, hskip, if_true, ih]

/-- With no live slot in the table, `waitpid(-1, ...)` returns `-1` at once:
the state, the log of native calls included, is as before. -/
theorem waitpid_any_without_children (C : Consts) (os : Win32 W) (fuel : Nat) (s : Sys W)
    (stat_loc : Option Int) (options : Int) (hnone : ∀ c ∈ s.table, c.pid ≤ 0) :
    waitpid C os fuel s (-1) stat_loc options = ⟨s, stat_loc, .pid (-1)⟩ := by
  simp [waitpid, collectTargets_no_live os _ s stat_loc [] hnone, waitAny]

/-- The property `waitpid_any_without_children` at a concrete input. -/
theorem waitpid_any_without_children_witness :
    (waitpid posix scripted 0 ⟨initialTable, Script.empty, []⟩ (-1) none posix.WNOHANG).ret
      = .pid (-1) :=
  congrArg WaitResult.ret
    (waitpid_any_without_children posix scripted 0 ⟨initialTable, Script.empty, []⟩ none
      posix.WNOHANG (by simp [initialTable]))

/-- When the scan of `waitpid(-1, ...)` has found children, none of them ended,
and the native wait on their handles answers `WAIT_TIMEOUT`, the call returns
`0`; the native wait got all collected handles, `bWaitAll = FALSE` and the
timeout of lines 100-105. -/
theorem waitpid_any_timeout (C : Consts) (os : Win32 W) (fuel : Nat) (s s1 : Sys W)
    (stat_loc st : Option Int) (options : Int) (targets : List Nat)
    (hscan : collectTargets os (List.range s.table.length) s stat_loc []
      = .targets s1 st targets)
    (hne : targets ≠ [])
    (htimeout : (os.WaitForMultipleObjects s1.world targets false (waitTimeout C options)).2
      = 258) :
    (waitpid C os fuel s (-1) stat_loc options).ret = .pid 0 ∧
    (waitpid C os fuel s (-1) stat_loc options).sys.table = s1.table ∧
    (waitpid C os fuel s (-1) stat_loc options).sys.trace
      = Event.WaitForMultipleObjects targets false (waitTimeout C options) 258 :: s1.trace := by
  have hcount : ¬ ((targets.length : Int) = 0) := by
    cases targets with
    | nil => exact absurd rfl hne
    | cons x xs => simp; omega
  have h258 : toInt 258 = WAIT_TIMEOUT := by decide
  simp [waitpid, hscan, waitAny, hcount, Sys.WaitForMultipleObjects, htimeout, h258]

/-- The property `waitpid_any_timeout` at a concrete input. -/
theorem waitpid_any_timeout_witness :
    (waitpid posix scripted 0
      ⟨[⟨100, 5⟩], { Script.empty with exitCodes := [some STILL_ACTIVE], waits := [258] }, []⟩
      (-1) none posix.WNOHANG).ret = .pid 0 :=
  (waitpid_any_timeout posix scripted 0
    ⟨[⟨100, 5⟩], { Script.empty with exitCodes := [some STILL_ACTIVE], waits := [258] }, []⟩
    ⟨[⟨100, 5⟩], { Script.empty with waits := [258] },
      [Event.GetExitCodeProcess 100 (some STILL_ACTIVE)]⟩
    none none posix.WNOHANG [100] rfl (by decide) rfl).1

/-- A child that is still active is left alone by `poll_child_status`: the
result is `0`, the table and the `int` behind `stat_loc` are untouched, and the
only native call is the exit-code query. -/
theorem poll_child_status_still_active (os : Win32 W) (s : Sys W) (child : Nat)
    (stat_loc : Option Int)
    (hactive : (os.GetExitCodeProcess s.world (slot s.table child).hProcess).2
      = some STILL_ACTIVE) :
    (poll_child_status os s child stat_loc).pid = 0 ∧
    (poll_child_status os s child stat_loc).stat_loc = stat_loc ∧
    (poll_child_status os s child stat_loc).sys.table = s.table ∧
    (poll_child_status os s child stat_loc).sys.trace
      = Event.GetExitCodeProcess (slot s.table child).hProcess (some STILL_ACTIVE) :: s.trace := by
  simp [poll_child_status, Sys.GetExitCodeProcess, hactive]

/-- The property `poll_child_status_still_active` at a concrete input. -/
theorem poll_child_status_still_active_witness :
    (poll_child_status scripted
      ⟨[⟨100, 5⟩], { Script.empty with exitCodes := [some STILL_ACTIVE] }, []⟩ 0 none).pid = 0 :=
  (poll_child_status_still_active scripted
    ⟨[⟨100, 5⟩], { Script.empty with exitCodes := [some STILL_ACTIVE] }, []⟩ 0 none rfl).1

/-- When the exit-code query fails, or the child has ended but the finalizing
wait is not signalled, `poll_child_status` releases the slot (handle `NULL`,
pid `0`), closes the handle it held, and returns `-1`; nothing is stored
through `stat_loc`. -/
theorem poll_child_status_failure (os : Win32 W) (s : Sys W) (child : Nat)
    (stat_loc : Option Int)
    (hfail : (os.GetExitCodeProcess s.world (slot s.table child).hProcess).2 = none ∨
      ∃ E, (os.GetExitCodeProcess s.world (slot s.table child).hProcess).2 = some E ∧
        E ≠ STILL_ACTIVE ∧
        (os.WaitForSingleObject
          (os.GetExitCodeProcess s.world (slot s.table child).hProcess).1
          (slot s.table child).hProcess INFINITE).2 ≠ WAIT_OBJECT_0) :
    (poll_child_status os s child stat_loc).pid = -1 ∧
    (poll_child_status os s child stat_loc).stat_loc = stat_loc ∧
    (poll_child_status os s child stat_loc).sys.table
      = s.table.set child { hProcess := NULL, pid := 0 } ∧
    (poll_child_status os s child stat_loc).sys.trace.head?
      = some (Event.CloseHandle (slot s.table child).hProcess) := by
  rcases hfail with h | ⟨E, h, hE, hw⟩
  · simp [poll_child_status, Sys.GetExitCodeProcess, h, CloseChildHandle, Sys.CloseHandle]
  · simp [poll_child_status, Sys.GetExitCodeProcess, h, hE, Sys.WaitForSingleObject, hw,
      CloseChildHandle, Sys.CloseHandle]

/-- The property `poll_child_status_failure` at a concrete input. -/
theorem poll_child_status_failure_witness :
    (poll_child_status scripted ⟨[⟨100, 5⟩], Script.empty, []⟩ 0 none).sys.table = [⟨0, 0⟩] :=
  (poll_child_status_failure scripted ⟨[⟨100, 5⟩], Script.empty, []⟩ 0 none
    (Or.inl rfl)).2.2.1

/-- A negative pid, or pid `0` with a signal other than `SIGINT`, is refused by
`kill` with `-1` before any native call. -/
theorem kill_invalid_argument (C : Consts) (os : Win32 W) (s : Sys W) (pid : Int) (sig : Int)
    (hbad : pid < 0 ∨ (pid = 0 ∧ sig ≠ C.SIGINT)) :
    kill C os s pid sig = (s, -1) := by
  simp [kill, hbad]

/-- The property `kill_invalid_argument` at a concrete input. -/
theorem kill_invalid_argument_witness :
    (kill posix scripted ⟨initialTable, Script.empty, []⟩ (-7) posix.SIGKILL).2 = -1 :=
  congrArg Prod.snd
    (kill_invalid_argument posix scripted ⟨initialTable, Script.empty, []⟩ (-7) posix.SIGKILL
      (Or.inl (by decide)))

/-- The probe `kill(pid, 0)` for `pid > 0`: the process is opened for query
only; the result is `0` exactly when the handle is usable, and then the handle
is closed again; the table is never changed. -/
theorem kill_probe (C : Consts) (os : Win32 W) (s : Sys W) (pid : Int) (hpid : 0 < pid) :
    (kill C os s pid 0).1.table = s.table ∧
    ((kill C os s pid 0).2 = 0 ↔
      usable (os.OpenProcess (os.GetCurrentProcessId s.world).1 PROCESS_QUERY_INFORMATION false
        (toDWORD pid)).2) ∧
    ((kill C os s pid 0).2 = 0 →
      (kill C os s pid 0).1.trace.head? = some (Event.CloseHandle
        (os.OpenProcess (os.GetCurrentProcessId s.world).1 PROCESS_QUERY_INFORMATION false
          (toDWORD pid)).2)) ∧
    ((kill C os s pid 0).2 = 0 ∨ (kill C os s pid 0).2 = -1) := by
  have h1 : ¬ pid < 0 := by omega
  have h2 : pid ≠ 0 := by omega
  by_cases hu : (os.OpenProcess (os.GetCurrentProcessId s.world).1 PROCESS_QUERY_INFORMATION
      false (toDWORD pid)).2 = NULL ∨
      (os.OpenProcess (os.GetCurrentProcessId s.world).1 PROCESS_QUERY_INFORMATION
        false (toDWORD pid)).2 = INVALID_HANDLE_VALUE
  · have hnu : ¬ usable (os.OpenProcess (os.GetCurrentProcessId s.world).1
        PROCESS_QUERY_INFORMATION false (toDWORD pid)).2 := by
      unfold usable; tauto
    simp [kill, h1, h2, Sys.GetCurrentProcessId, Sys.OpenProcess, hu, hnu]
  · have hyes : usable (os.OpenProcess (os.GetCurrentProcessId s.world).1
        PROCESS_QUERY_INFORMATION false (toDWORD pid)).2 := by
      unfold usable; tauto
    simp [kill, h1, h2, Sys.GetCurrentProcessId, Sys.OpenProcess, Sys.CloseHandle, hu, hyes]

/-- The property `kill_probe` at a concrete input. -/
theorem kill_probe_witness :
    (kill posix scripted ⟨[⟨100, 5⟩], { Script.empty with opens := [44] }, []⟩ 5 0).2 = 0 :=
  ((kill_probe posix scripted ⟨[⟨100, 5⟩], { Script.empty with opens := [44] }, []⟩ 5
    (by decide)).2.1).mpr ⟨by decide, by decide⟩

/-- In the loop of `waitpid` on one child that is still active, a native wait
that answers `WAIT_OBJECT_0 + 1` ends the call with `-1`, whatever the options
and however many waits were retried before. -/
theorem waitLoop_interrupted (C : Consts) (os : Win32 W) (child : Nat) (options : Int)
    (timeout : Nat) (fuel : Nat) (s : Sys W) (stat_loc : Option Int) (retried : Nat)
    (hactive : (os.GetExitCodeProcess s.world (slot s.table child).hProcess).2
      = some STILL_ACTIVE)
    (hanswer : (os.WaitForMultipleObjects
      (os.GetExitCodeProcess s.world (slot s.table child).hProcess).1
      [(slot s.table child).hProcess] false timeout).2 = WAIT_OBJECT_0 + 1) :
    (waitLoop C os child options timeout (fuel + 1) s stat_loc retried).ret = .pid (-1) := by
  have h1 : toDWORD (toInt (WAIT_OBJECT_0 + 1)) = WAIT_OBJECT_0 + 1 := by decide
  simp [waitLoop, poll_child_status, Sys.GetExitCodeProcess, hactive,
    Sys.WaitForMultipleObjects, hanswer, h1]

/-- The property `waitLoop_interrupted` at a concrete input. -/
theorem waitLoop_interrupted_witness :
    (waitLoop posix scripted 0 0 INFINITE 1
      ⟨[⟨100, 5⟩], { Script.empty with exitCodes := [some STILL_ACTIVE], waits := [1] }, []⟩
      none 3).ret = .pid (-1) :=
  waitLoop_interrupted posix scripted 0 0 INFINITE 0
    ⟨[⟨100, 5⟩], { Script.empty with exitCodes := [some STILL_ACTIVE], waits := [1] }, []⟩
    none 3 rfl rfl

end Win32Process
